import Mathlib

/-!
Verification development for the Lunda forgotten-branch tracker.

The repository contains two full variants of the optimized staleness
checker: `src/code/checkBranches.ts` (embedded below in namespace `CB`)
and the rewrite in `src/unnamed/part_002` (namespace `P2`).  Both are
embedded shallowly: timestamps are rationals measured in milliseconds,
`Math.ceil`/`Math.floor` become `Int.ceil`/`Int.floor` on `ℚ`, the
GitHub API is an explicit oracle passed as a function argument, and the
JavaScript in-place array mutations become functional list updates.
JavaScript's `Array.prototype.sort` is stable (ES2019), so it is
embedded as `List.mergeSort`.
-/

namespace Lunda

/-- Milliseconds per day, the divisor `1000 * 60 * 60 * 24` used throughout
the source when converting timestamp differences to fractional days. -/
def msPerDay : ℚ := 1000 * 60 * 60 * 24

/-- Latest-commit information returned by the GitHub `listCommits` call:
the committer date (a timestamp in ms) and the commit SHA. -/
structure CommitInfo where
  date : ℚ
  sha : String
deriving DecidableEq, Repr

/-- Possible outcomes of the remote `listCommits` call for a branch:
a latest commit, a 200 response with zero commits, a 404-style
"not found" error, or a transport/auth failure (both of the latter are
thrown by the HTTP client and the distinction matters for the spec's
error-handling claims). -/
inductive LookupResult where
  | found : CommitInfo → LookupResult
  | empty : LookupResult
  | notFound : LookupResult
  | transportError : LookupResult
deriving DecidableEq

/-- A fingerprint oracle: what the remote `listCommits` call would return
for each branch name during this run. -/
def Oracle := String → LookupResult

/-- `getBranchLastCommit` / `getLatestCommit` from the source: returns the
latest commit of the branch, or `null` when the response is empty — and,
because the whole body is wrapped in `try { ... } catch { return null; }`,
also `null` on a 404 and on any transport/auth failure. -/
def getBranchLastCommit (lookup : Oracle) (branchName : String) : Option CommitInfo :=
  match lookup branchName with
  | .found ci => some ci
  | .empty => none
  | .notFound => none
  | .transportError => none

/-- `getAllBranches` from the source: the paginated branch listing with
`main` and `master` filtered out.  The raw listing is supplied by the
caller (the pagination loop is pure accumulation). -/
def getAllBranches (rawBranches : List String) : List String :=
  rawBranches.filter (fun n => !(n == "main" || n == "master"))

end Lunda

namespace CB

open Lunda

/-- `BranchEntry` of `src/code/checkBranches.ts`. -/
structure BranchEntry where
  name : String
  lastCommitDate : ℚ
  lastCommitSha : String
  mValue : ℤ
  calculatedAt : ℚ
deriving DecidableEq, Repr

/-- `TrackingData` of `src/code/checkBranches.ts`. -/
structure TrackingData where
  threshold : ℤ
  branches : List BranchEntry
  lastFullScan : ℚ
deriving DecidableEq, Repr

/-- `ForgottenBranch` of `src/code/checkBranches.ts`. -/
structure ForgottenBranch where
  name : String
  lastCommitDate : ℚ
  days : ℤ
deriving DecidableEq, Repr

/-- `calculateMValue`: `Math.ceil(threshold - (now - commitDate) / msPerDay)`.
The ambient `new Date()` becomes the explicit `now` argument and the global
`DAYS_THRESHOLD` the explicit `threshold` argument. -/
def calculateMValue (now lastCommitDate : ℚ) (threshold : ℤ) : ℤ :=
  ⌈(threshold : ℚ) - (now - lastCommitDate) / msPerDay⌉

/-- `calculateNextCronDate` computes `new Date()` plus `max(1, daysFromNow)`
days and renders it as a `0 0 D M *` cron line.  We embed the target
instant itself; the rendering of the instant's UTC day/month into the cron
string is calendar formatting for the external trigger document. -/
def calculateNextCronDate (now : ℚ) (daysFromNow : ℤ) : ℚ :=
  now + ((max 1 daysFromNow : ℤ) : ℚ) * msPerDay

/-- The comparator `(a, b) => a.mValue - b.mValue` used in every
`branches.sort` call of the file. -/
def mLe (a b : BranchEntry) : Bool := a.mValue ≤ b.mValue

/-- `performInitialScan`: enumerate all branches, fetch each one's latest
commit (skipping branches with none), compute `mValue`s and sort ascending
by `mValue`. -/
def performInitialScan (lookup : Oracle) (now : ℚ) (threshold : ℤ)
    (rawBranches : List String) : TrackingData :=
  let branchNames := getAllBranches rawBranches
  let entries := branchNames.filterMap fun name =>
    (getBranchLastCommit lookup name).map fun ci =>
      { name := name, lastCommitDate := ci.date, lastCommitSha := ci.sha,
        mValue := calculateMValue now ci.date threshold,
        calculatedAt := now : BranchEntry }
  { threshold := threshold,
    branches := entries.mergeSort mLe,
    lastFullScan := now }

/-- The in-place entry update performed on lines 313–316 and 339–342 of
`checkBranches.ts`. -/
def updateEntry (now : ℚ) (threshold : ℤ) (e : BranchEntry) (ci : CommitInfo) :
    BranchEntry :=
  { e with lastCommitDate := ci.date, lastCommitSha := ci.sha,
           mValue := calculateMValue now ci.date threshold, calculatedAt := now }

/-- Result of `performOptimizedCheck`, instrumented with the list of branch
names whose fingerprint the check fetched (in fetch order). -/
structure OptResult where
  staleBranches : List ForgottenBranch
  updatedTracking : TrackingData
  queried : List String
deriving DecidableEq

/-- The backward walk of `performOptimizedCheck` (lines 321–344), phrased on
the tail of the list *reversed*: the source iterates `i` from the last index
down to `1`, deleting absent branches (`splice`), stopping at the first
unchanged SHA (leaving everything at lower indices untouched) and updating
changed entries in place.  The input here is `[e_(n-1), ..., e_1]` and the
output list is in the same reversed order, paired with the names queried. -/
def walkBackRev (lookup : Oracle) (now : ℚ) (threshold : ℤ) :
    List BranchEntry → List BranchEntry × List String
  | [] => ([], [])
  | e :: rest =>
    match getBranchLastCommit lookup e.name with
    | none =>
      let r := walkBackRev lookup now threshold rest
      (r.1, e.name :: r.2)
    | some ci =>
      if ci.sha = e.lastCommitSha then
        (e :: rest, [e.name])
      else
        let r := walkBackRev lookup now threshold rest
        (updateEntry now threshold e ci :: r.1, e.name :: r.2)

/-- `performOptimizedCheck` of `checkBranches.ts`: add newly appeared
branches, drop tracked branches that no longer exist, sort, then inspect
the first entry (deleted / unchanged SHA / changed SHA with backward walk).
`needsResort` in the source is `true` on every path reaching line 346, so
the changed-SHA branch always re-sorts. -/
def performOptimizedCheck (lookup : Oracle) (now : ℚ) (threshold : ℤ)
    (rawBranches : List String) (tracking : TrackingData) : OptResult :=
  let currentBranches := getAllBranches rawBranches
  let trackedNames := tracking.branches.map (·.name)
  let newBranches := currentBranches.filter (fun n => !(trackedNames.contains n))
  let added := newBranches.filterMap fun n =>
    (getBranchLastCommit lookup n).map fun ci =>
      { name := n, lastCommitDate := ci.date, lastCommitSha := ci.sha,
        mValue := calculateMValue now ci.date threshold,
        calculatedAt := now : BranchEntry }
  let branches1 := tracking.branches ++ added
  let branches2 := branches1.filter (fun b => currentBranches.contains b.name)
  -- The source checks `length === 0` before sorting; sorting preserves
  -- emptiness, so we match on the sorted list directly.
  match branches2.mergeSort mLe with
  | [] =>
    { staleBranches := [],
      updatedTracking := { tracking with branches := [] },
      queried := newBranches }
  | first :: rest =>
    match getBranchLastCommit lookup first.name with
    | none =>
      { staleBranches := [],
        updatedTracking := { tracking with branches := rest },
        queried := newBranches ++ [first.name] }
    | some ci =>
      if ci.sha = first.lastCommitSha then
        let daysSinceUpdate := (now - ci.date) / msPerDay
        if (threshold : ℚ) ≤ daysSinceUpdate then
          { staleBranches := [{ name := first.name, lastCommitDate := ci.date,
                                days := ⌊daysSinceUpdate⌋ }],
            updatedTracking := { tracking with branches := rest },
            queried := newBranches ++ [first.name] }
        else
          { staleBranches := [],
            updatedTracking := { tracking with branches := first :: rest },
            queried := newBranches ++ [first.name] }
      else
        let first' := updateEntry now threshold first ci
        let w := walkBackRev lookup now threshold rest.reverse
        { staleBranches := [],
          updatedTracking :=
            { tracking with branches := (first' :: w.1.reverse).mergeSort mLe },
          queried := newBranches ++ first.name :: w.2 }

/-- Outcome of fetching the tracking document in `loadTrackingData`:
content found (and parsed), a 404 (no document yet), or a transport/auth
failure thrown by the client. -/
inductive DocReadResult where
  | found : TrackingData → DocReadResult
  | docNotFound : DocReadResult
  | transportError : DocReadResult

/-- `loadTrackingData`: a 404 is caught and becomes `null` (here `none`);
any other thrown error is re-thrown (`throw err`), i.e. propagates. -/
def loadTrackingData : DocReadResult → Except Unit (Option TrackingData)
  | .found t => .ok (some t)
  | .docNotFound => .ok none
  | .transportError => .error ()

/-- State of the workflow trigger document as `updateWorkflowCron` finds it.
`hasCron` means the read succeeds, the `cron:` pattern is present and the
write commit succeeds; every other case makes `updateWorkflowCron` return
without writing (the whole body is inside `try/catch`, and read errors,
missing content, a missing pattern and write errors are all logged and
swallowed). -/
inductive WorkflowDocResult where
  | hasCron : WorkflowDocResult
  | noContent : WorkflowDocResult
  | noCronPattern : WorkflowDocResult
  | readError : WorkflowDocResult
  | writeError : WorkflowDocResult

/-- `updateWorkflowCron`: returns the instant actually committed into the
trigger document, or `none` when the update was skipped or failed.  It
never throws: all failure paths end in `console.error`/`console.log` and a
plain `return`. -/
def updateWorkflowCron (doc : WorkflowDocResult) (target : ℚ) : Option ℚ :=
  match doc with
  | .hasCron => some target
  | _ => none

/-- The external world one `run` of `checkBranches.ts` interacts with. -/
structure World where
  trackingDoc : DocReadResult
  rawBranches : Except Unit (List String)
  lookup : Oracle
  saveOk : Bool
  workflowDoc : WorkflowDocResult

/-- Observable outcome of one `run`: the process exit status, the tracking
document persisted by `saveTrackingData` (if the write happened and
succeeded), the reported forgotten branches, the wake-up instant handed to
`updateWorkflowCron` (if any), the instant actually committed there, and
which of the two paths (full scan vs optimized check) was taken. -/
structure RunOutcome where
  exitZero : Bool
  saved : Option TrackingData
  reported : List ForgottenBranch
  scheduled : Option ℚ
  cronWritten : Option ℚ
  fullScanPath : Bool
deriving DecidableEq

/-- Outcome of a run aborted by a thrown error before anything was
reported or saved: `run`'s `catch` prints a diagnostic and calls
`process.exit(1)`. -/
def fatalOutcome : RunOutcome :=
  { exitZero := false, saved := none, reported := [], scheduled := none,
    cronWritten := none, fullScanPath := false }

/-- The tail of `run` after `staleBranches`/`tracking` are determined:
report, save the tracking data (a failed save throws, reaching the `catch`
and `process.exit(1)` after the report was already printed), then schedule
the next run from `branches[0].mValue` when the list is non-empty. -/
def finishRun (now : ℚ) (w : World) (fullScanPath : Bool)
    (stale : List ForgottenBranch) (tracking : TrackingData) : RunOutcome :=
  if w.saveOk then
    let sched : Option ℚ :=
      match tracking.branches with
      | [] => none
      | e :: _ => some (calculateNextCronDate now e.mValue)
    { exitZero := true, saved := some tracking, reported := stale,
      scheduled := sched,
      cronWritten := match sched with
        | none => none
        | some t => updateWorkflowCron w.workflowDoc t,
      fullScanPath := fullScanPath }
  else
    { exitZero := false, saved := none, reported := stale, scheduled := none,
      cronWritten := none, fullScanPath := fullScanPath }

/-- The full-scan arm of `run` (lines 364–382): build a fresh snapshot,
split out entries with `mValue ≤ 0` as already-stale reports, keep only
entries with `mValue > 0`. -/
def runFullScan (lookup : Oracle) (now : ℚ) (threshold : ℤ) (w : World)
    (rawBranches : List String) : RunOutcome :=
  let tracking := performInitialScan lookup now threshold rawBranches
  let stale := (tracking.branches.filter (fun b => b.mValue ≤ 0)).map fun b =>
    { name := b.name, lastCommitDate := b.lastCommitDate,
      days := ⌊(now - b.lastCommitDate) / msPerDay⌋ : ForgottenBranch }
  let tracking2 :=
    { tracking with branches := tracking.branches.filter (fun b => 0 < b.mValue) }
  finishRun now w true stale tracking2

/-- `run` of `checkBranches.ts`.  A full scan happens exactly when no
tracking document exists or its stored threshold differs from the active
one; otherwise the optimized check runs.  Errors thrown by the tracking
document read, the branch listing, or the save reach the `catch` and give
a non-zero exit. -/
def run (lookup : Oracle) (now : ℚ) (threshold : ℤ) (w : World) : RunOutcome :=
  match loadTrackingData w.trackingDoc with
  | .error _ => fatalOutcome
  | .ok trackingOpt =>
    match w.rawBranches with
    | .error _ => fatalOutcome
    | .ok rawBranches =>
      match trackingOpt with
      | none => runFullScan lookup now threshold w rawBranches
      | some tracking =>
        if tracking.threshold ≠ threshold then
          runFullScan lookup now threshold w rawBranches
        else
          let r := performOptimizedCheck lookup now threshold rawBranches tracking
          finishRun now w false r.staleBranches r.updatedTracking

end CB

namespace P2

open Lunda

/-- `BranchEntry` of `src/unnamed/part_002`. -/
structure BranchEntry where
  name : String
  sha : String
  daysUntilStale : ℤ
  calculatedAt : ℚ
deriving DecidableEq, Repr

/-- `TrackingData` of `src/unnamed/part_002`. -/
structure TrackingData where
  threshold : ℤ
  lastFullScan : ℚ
  branches : List BranchEntry
deriving DecidableEq, Repr

/-- `StaleBranch` of `src/unnamed/part_002`. -/
structure StaleBranch where
  name : String
  daysSinceLastCommit : ℤ
deriving DecidableEq, Repr

/-- `calculateDaysUntilStale`:
`Math.ceil(DAYS_THRESHOLD - (now - commitDate) / msPerDay)`. -/
def calculateDaysUntilStale (now : ℚ) (threshold : ℤ) (lastCommitDate : ℚ) : ℤ :=
  ⌈(threshold : ℚ) - (now - lastCommitDate) / msPerDay⌉

/-- The comparator `(a, b) => a.daysUntilStale - b.daysUntilStale` used by
every `branches.sort` call in `part_002`. -/
def dLe (a b : BranchEntry) : Bool := a.daysUntilStale ≤ b.daysUntilStale

/-- `fullScan` of `part_002`: enumerate branches, fetch each latest commit
(skipping branches with none), compute `daysUntilStale` and sort
ascending. -/
def fullScan (lookup : Oracle) (now : ℚ) (threshold : ℤ)
    (rawBranches : List String) : TrackingData :=
  let branchNames := getAllBranches rawBranches
  let entries := branchNames.filterMap fun name =>
    (getBranchLastCommit lookup name).map fun ci =>
      { name := name, sha := ci.sha,
        daysUntilStale := calculateDaysUntilStale now threshold ci.date,
        calculatedAt := now : BranchEntry }
  { threshold := threshold, lastFullScan := now, branches := entries.mergeSort dLe }

/-- The in-place entry update performed on lines 271–273 and 296–298 of
`part_002`. -/
def updateEntryP2 (now : ℚ) (threshold : ℤ) (e : BranchEntry) (ci : CommitInfo) :
    BranchEntry :=
  { e with sha := ci.sha,
           daysUntilStale := calculateDaysUntilStale now threshold ci.date,
           calculatedAt := now }

/-- The forward walk of `optimizedCheck` (lines 276–299): scan the tail
left to right, dropping deleted branches (`splice` + `i--`), stopping at
the first entry whose SHA is unchanged (everything after it is left
untouched), and updating changed entries in place.  Returns the new tail
and the names queried, in order. -/
def walkForward (lookup : Oracle) (now : ℚ) (threshold : ℤ) :
    List BranchEntry → List BranchEntry × List String
  | [] => ([], [])
  | e :: rest =>
    match getBranchLastCommit lookup e.name with
    | none =>
      let r := walkForward lookup now threshold rest
      (r.1, e.name :: r.2)
    | some ci =>
      if ci.sha = e.sha then
        (e :: rest, [e.name])
      else
        let r := walkForward lookup now threshold rest
        (updateEntryP2 now threshold e ci :: r.1, e.name :: r.2)

/-- Result of `optimizedCheck`, instrumented with the branch names whose
fingerprint was fetched. -/
structure OptResultP2 where
  staleBranches : List StaleBranch
  updatedTracking : TrackingData
  queried : List String
deriving DecidableEq

/-- `optimizedCheck` of `part_002`: inspect only `branches[0]` (deleted /
unchanged SHA, reported stale with
`DAYS_THRESHOLD - daysUntilStale + Math.abs(daysUntilStale)` days /
changed SHA followed by the forward walk and a re-sort).  Unlike the
`checkBranches.ts` variant it performs no branch enumeration and no
new-branch additions. -/
def optimizedCheck (lookup : Oracle) (now : ℚ) (threshold : ℤ)
    (tracking : TrackingData) : OptResultP2 :=
  match tracking.branches with
  | [] => { staleBranches := [], updatedTracking := tracking, queried := [] }
  | first :: rest =>
    match getBranchLastCommit lookup first.name with
    | none =>
      { staleBranches := [],
        updatedTracking := { tracking with branches := rest },
        queried := [first.name] }
    | some ci =>
      if ci.sha = first.sha then
        { staleBranches :=
            [{ name := first.name,
               daysSinceLastCommit :=
                 threshold - first.daysUntilStale + |first.daysUntilStale| }],
          updatedTracking := { tracking with branches := rest },
          queried := [first.name] }
      else
        let first' := updateEntryP2 now threshold first ci
        let r := walkForward lookup now threshold rest
        { staleBranches := [],
          updatedTracking :=
            { tracking with branches := (first' :: r.1).mergeSort dLe },
          queried := first.name :: r.2 }

/-- `needsFullRescan` of `part_002`: full scan when no data exists, the
threshold changed, or at least `threshold` days elapsed since
`lastFullScan`. -/
def needsFullRescan (now : ℚ) (threshold : ℤ) : Option TrackingData → Bool
  | none => true
  | some t =>
    t.threshold ≠ threshold ||
      (threshold : ℚ) ≤ (now - t.lastFullScan) / msPerDay

/-- Outcome of fetching the tracking document, as in the `CB` variant. -/
inductive DocReadResultP2 where
  | found : TrackingData → DocReadResultP2
  | docNotFound : DocReadResultP2
  | transportError : DocReadResultP2

/-- `loadTrackingData` of `part_002` (identical logic to the `CB`
variant): a 404 becomes `null`, other errors propagate. -/
def loadTrackingDataP2 : DocReadResultP2 → Except Unit (Option TrackingData)
  | .found t => .ok (some t)
  | .docNotFound => .ok none
  | .transportError => .error ()

/-- The external world one `run` of `part_002` interacts with. -/
structure WorldP2 where
  trackingDoc : DocReadResultP2
  rawBranches : Except Unit (List String)
  lookup : Oracle
  saveOk : Bool
  workflowDoc : CB.WorkflowDocResult

/-- Observable outcome of one `run` of `part_002`. -/
structure RunOutcomeP2 where
  exitZero : Bool
  saved : Option TrackingData
  reported : List StaleBranch
  scheduled : Option ℚ
  cronWritten : Option ℚ
  fullScanPath : Bool
deriving DecidableEq

/-- Outcome of a `part_002` run aborted by a thrown error before anything
was reported or saved. -/
def fatalOutcomeP2 : RunOutcomeP2 :=
  { exitZero := false, saved := none, reported := [], scheduled := none,
    cronWritten := none, fullScanPath := false }

/-- The tail of `part_002`'s `run`: `reportStaleBranches`, then
`saveTrackingData` (a failed save throws after the report was printed),
then `scheduleNextRun` from `branches[0].daysUntilStale` when non-empty. -/
def finishRunP2 (now : ℚ) (w : WorldP2) (fullScanPath : Bool)
    (stale : List StaleBranch) (tracking : TrackingData) : RunOutcomeP2 :=
  if w.saveOk then
    let sched : Option ℚ :=
      match tracking.branches with
      | [] => none
      | e :: _ => some (CB.calculateNextCronDate now e.daysUntilStale)
    { exitZero := true, saved := some tracking, reported := stale,
      scheduled := sched,
      cronWritten := match sched with
        | none => none
        | some t => CB.updateWorkflowCron w.workflowDoc t,
      fullScanPath := fullScanPath }
  else
    { exitZero := false, saved := none, reported := stale, scheduled := none,
      cronWritten := none, fullScanPath := fullScanPath }

/-- The full-scan arm of `part_002`'s `run` (lines 361–372): entries with
`daysUntilStale ≤ 0` are reported with
`DAYS_THRESHOLD + Math.abs(daysUntilStale)` days and removed. -/
def runFullScanP2 (lookup : Oracle) (now : ℚ) (threshold : ℤ) (w : WorldP2)
    (rawBranches : List String) : RunOutcomeP2 :=
  let tracking := fullScan lookup now threshold rawBranches
  let stale := (tracking.branches.filter (fun b => b.daysUntilStale ≤ 0)).map fun b =>
    { name := b.name,
      daysSinceLastCommit := threshold + |b.daysUntilStale| : StaleBranch }
  let tracking2 :=
    { tracking with
      branches := tracking.branches.filter (fun b => 0 < b.daysUntilStale) }
  finishRunP2 now w true stale tracking2

/-- `run` of `part_002`: `needsFullRescan` decides between the full scan
and the optimized check; the optimized path never touches the branch
listing. -/
def runP2 (lookup : Oracle) (now : ℚ) (threshold : ℤ) (w : WorldP2) : RunOutcomeP2 :=
  match loadTrackingDataP2 w.trackingDoc with
  | .error _ => fatalOutcomeP2
  | .ok trackingOpt =>
    if needsFullRescan now threshold trackingOpt then
      match w.rawBranches with
      | .error _ => fatalOutcomeP2
      | .ok rawBranches => runFullScanP2 lookup now threshold w rawBranches
    else
      match trackingOpt with
      | none => fatalOutcomeP2
      | some tracking =>
        let r := optimizedCheck lookup now threshold tracking
        finishRunP2 now w false r.staleBranches r.updatedTracking

end P2

/-! ## Helper lemmas -/

namespace CB

open Lunda

lemma mLe_trans : ∀ a b c : BranchEntry, mLe a b → mLe b c → mLe a c := by
  intro a b c hab hbc
  simp only [mLe, decide_eq_true_eq] at *
  exact le_trans hab hbc

lemma mLe_total : ∀ a b : BranchEntry, mLe a b || mLe b a := by
  intro a b
  simp only [mLe, Bool.or_eq_true, decide_eq_true_eq]
  exact Int.le_total a.mValue b.mValue

lemma newBranches_nil {cur names : List String}
    (h : ∀ n ∈ cur, names.contains n) :
    cur.filter (fun n => !(names.contains n)) = [] := by
  rw [List.filter_eq_nil_iff]
  intro a ha
  simpa using h a ha

lemma filter_current_self {l : List BranchEntry} {cur : List String}
    (h : ∀ b ∈ l, cur.contains b.name) :
    l.filter (fun b => cur.contains b.name) = l :=
  List.filter_eq_self.mpr h

/-- If every entry of the walked list still has its stored SHA, the
backward walk removes and updates nothing: it stops at the very first
entry it inspects (or inspects nothing when the list is empty). -/
lemma walkBackRev_unchanged (lookup : Oracle) (now : ℚ) (T : ℤ)
    (l : List BranchEntry)
    (h : ∀ e ∈ l, ∃ ci, lookup e.name = .found ci ∧ ci.sha = e.lastCommitSha) :
    (walkBackRev lookup now T l).1 = l := by
  cases l with
  | nil => rfl
  | cons e rest =>
    obtain ⟨ci, hci, hsha⟩ := h e (List.mem_cons_self e rest)
    simp only [walkBackRev, getBranchLastCommit, hci, if_pos hsha]

/-- The names surviving the backward walk form a sublist of the input's
names: entries are kept, updated in place (name unchanged) or dropped. -/
lemma walkBackRev_names_sublist (lookup : Oracle) (now : ℚ) (T : ℤ) :
    ∀ l : List BranchEntry,
      ((walkBackRev lookup now T l).1.map (·.name)).Sublist (l.map (·.name)) := by
  intro l
  induction l with
  | nil => simp [walkBackRev]
  | cons e rest ih =>
    simp only [walkBackRev]
    cases getBranchLastCommit lookup e.name with
    | none => exact ih.trans (List.sublist_cons_self _ _)
    | some ci =>
      by_cases hsha : ci.sha = e.lastCommitSha
      · simp [hsha]
      · simpa [hsha, updateEntry] using ih.cons₂ e.name

/-- Entries produced by the full scan's `filterMap` carry the branch names
they were built from, in order: the produced names are a sublist of the
enumerated names. -/
lemma scan_names_sublist (lookup : Oracle) (now : ℚ) (T : ℤ) :
    ∀ names : List String,
      ((names.filterMap fun name =>
        (getBranchLastCommit lookup name).map fun ci =>
          { name := name, lastCommitDate := ci.date, lastCommitSha := ci.sha,
            mValue := calculateMValue now ci.date T,
            calculatedAt := now : BranchEntry }).map (·.name)).Sublist names := by
  intro names
  induction names with
  | nil => simp
  | cons n rest ih =>
    simp only [List.filterMap_cons]
    cases getBranchLastCommit lookup n with
    | none => exact ih.trans (List.sublist_cons_self _ _)
    | some ci => simpa using ih.cons₂ n

/-- Reduction of `performOptimizedCheck` when the branch listing matches
the tracked set exactly, the input is sorted, and `records[0]`'s
fingerprint is unchanged with at least `threshold` days elapsed:
`records[0]` is reported stale and removed, the rest is untouched, and
only `records[0]`'s fingerprint is queried. -/
lemma optCB_unchanged_stale (lookup : Oracle) (now : ℚ) (T : ℤ)
    (raw : List String) (tr : TrackingData) (first : BranchEntry)
    (rest : List BranchEntry) (ci : CommitInfo)
    (hbr : tr.branches = first :: rest)
    (hsort : List.Pairwise (fun a b => mLe a b = true) tr.branches)
    (hsub : ∀ n ∈ getAllBranches raw, (tr.branches.map (·.name)).contains n)
    (hsup : ∀ b ∈ tr.branches, (getAllBranches raw).contains b.name)
    (hlk : lookup first.name = .found ci)
    (hsha : ci.sha = first.lastCommitSha)
    (hdays : (T : ℚ) ≤ (now - ci.date) / msPerDay) :
    performOptimizedCheck lookup now T raw tr =
      { staleBranches := [{ name := first.name, lastCommitDate := ci.date,
                            days := ⌊(now - ci.date) / msPerDay⌋ }],
        updatedTracking := { tr with branches := rest },
        queried := [first.name] } := by
  simp only [performOptimizedCheck]
  rw [newBranches_nil hsub]
  simp only [List.filterMap_nil, List.append_nil]
  rw [filter_current_self hsup, hbr, List.mergeSort_of_sorted (hbr ▸ hsort)]
  simp only [getBranchLastCommit, hlk, if_pos hsha, if_pos hdays, List.nil_append]

/-- Reduction of `performOptimizedCheck` when the branch listing matches
the tracked set, the input is sorted, and `records[0]`'s fingerprint is
unchanged with fewer than `threshold` days elapsed: nothing is reported
and the tracking data is returned unchanged. -/
lemma optCB_unchanged_fresh (lookup : Oracle) (now : ℚ) (T : ℤ)
    (raw : List String) (tr : TrackingData) (first : BranchEntry)
    (rest : List BranchEntry) (ci : CommitInfo)
    (hbr : tr.branches = first :: rest)
    (hsort : List.Pairwise (fun a b => mLe a b = true) tr.branches)
    (hsub : ∀ n ∈ getAllBranches raw, (tr.branches.map (·.name)).contains n)
    (hsup : ∀ b ∈ tr.branches, (getAllBranches raw).contains b.name)
    (hlk : lookup first.name = .found ci)
    (hsha : ci.sha = first.lastCommitSha)
    (hdays : (now - ci.date) / msPerDay < (T : ℚ)) :
    performOptimizedCheck lookup now T raw tr =
      { staleBranches := [],
        updatedTracking := tr,
        queried := [first.name] } := by
  simp only [performOptimizedCheck]
  rw [newBranches_nil hsub]
  simp only [List.filterMap_nil, List.append_nil]
  rw [filter_current_self hsup, hbr, List.mergeSort_of_sorted (hbr ▸ hsort)]
  simp only [getBranchLastCommit, hlk, if_pos hsha, if_neg (not_le.mpr hdays),
    List.nil_append, ← hbr]

/-- Reduction of `performOptimizedCheck` when the branch listing matches
the tracked set, the input is sorted, `records[0]`'s fingerprint changed
and every other record's fingerprint is unchanged: only `records[0]` is
recomputed, the tail survives untouched, and the list is re-sorted. -/
lemma optCB_changed_tail_unchanged (lookup : Oracle) (now : ℚ) (T : ℤ)
    (raw : List String) (tr : TrackingData) (first : BranchEntry)
    (rest : List BranchEntry) (ci : CommitInfo)
    (hbr : tr.branches = first :: rest)
    (hsort : List.Pairwise (fun a b => mLe a b = true) tr.branches)
    (hsub : ∀ n ∈ getAllBranches raw, (tr.branches.map (·.name)).contains n)
    (hsup : ∀ b ∈ tr.branches, (getAllBranches raw).contains b.name)
    (hlk : lookup first.name = .found ci)
    (hsha : ci.sha ≠ first.lastCommitSha)
    (htail : ∀ e ∈ rest, ∃ ci', lookup e.name = .found ci' ∧ ci'.sha = e.lastCommitSha) :
    performOptimizedCheck lookup now T raw tr =
      { staleBranches := [],
        updatedTracking :=
          { tr with branches :=
              (updateEntry now T first ci :: rest).mergeSort mLe },
        queried := first.name :: (walkBackRev lookup now T rest.reverse).2 } := by
  have hrev : (walkBackRev lookup now T rest.reverse).1 = rest.reverse := by
    apply walkBackRev_unchanged
    intro e he
    exact htail e (List.mem_reverse.mp he)
  simp only [performOptimizedCheck]
  rw [newBranches_nil hsub]
  simp only [List.filterMap_nil, List.append_nil]
  rw [filter_current_self hsup, hbr, List.mergeSort_of_sorted (hbr ▸ hsort)]
  simp only [getBranchLastCommit, hlk, if_neg hsha, hrev, List.reverse_reverse,
    List.nil_append]

end CB

namespace P2

open Lunda

lemma dLe_trans : ∀ a b c : BranchEntry, dLe a b → dLe b c → dLe a c := by
  intro a b c hab hbc
  simp only [dLe, decide_eq_true_eq] at *
  exact le_trans hab hbc

lemma dLe_total : ∀ a b : BranchEntry, dLe a b || dLe b a := by
  intro a b
  simp only [dLe, Bool.or_eq_true, decide_eq_true_eq]
  exact Int.le_total a.daysUntilStale b.daysUntilStale

/-- If the first walked entry still has its stored SHA, the forward walk
stops immediately, leaving the whole list untouched and querying only that
first entry. -/
lemma walkForward_unchanged_head (lookup : Oracle) (now : ℚ) (T : ℤ)
    (e : BranchEntry) (rest : List BranchEntry) (ci : CommitInfo)
    (hci : lookup e.name = .found ci) (hsha : ci.sha = e.sha) :
    walkForward lookup now T (e :: rest) = (e :: rest, [e.name]) := by
  simp only [walkForward, getBranchLastCommit, hci, if_pos hsha]

/-- Names surviving the forward walk form a sublist of the input's names,
and every queried name is one of the input's names. -/
lemma walkForward_names (lookup : Oracle) (now : ℚ) (T : ℤ) :
    ∀ l : List BranchEntry,
      ((walkForward lookup now T l).1.map (·.name)).Sublist (l.map (·.name)) ∧
      ∀ q ∈ (walkForward lookup now T l).2, q ∈ l.map (·.name) := by
  intro l
  induction l with
  | nil => simp [walkForward]
  | cons e rest ih =>
    simp only [walkForward]
    cases getBranchLastCommit lookup e.name with
    | none =>
      refine ⟨ih.1.trans (List.sublist_cons_self _ _), ?_⟩
      intro q hq
      rcases List.mem_cons.mp hq with hq | hq
      · simp [hq]
      · exact List.mem_cons_of_mem _ (ih.2 q hq)
    | some ci =>
      by_cases hsha : ci.sha = e.sha
      · refine ⟨by simp [hsha], ?_⟩
        intro q hq
        simp only [hsha, if_true] at hq
        simp at hq
        simp [hq]
      · refine ⟨by simpa [hsha, updateEntryP2] using ih.1.cons₂ e.name, ?_⟩
        intro q hq
        simp only [hsha, if_false] at hq
        rcases List.mem_cons.mp hq with hq | hq
        · simp [hq]
        · exact List.mem_cons_of_mem _ (ih.2 q hq)

/-- If every entry of the walked list still has its stored SHA, the
forward walk removes and updates nothing. -/
lemma walkForward_unchanged (lookup : Oracle) (now : ℚ) (T : ℤ)
    (l : List BranchEntry)
    (h : ∀ e ∈ l, ∃ ci, lookup e.name = .found ci ∧ ci.sha = e.sha) :
    (walkForward lookup now T l).1 = l := by
  cases l with
  | nil => rfl
  | cons e rest =>
    obtain ⟨ci, hci, hsha⟩ := h e (List.mem_cons_self e rest)
    simp only [walkForward, getBranchLastCommit, hci, if_pos hsha]

/-- Reduction of `optimizedCheck` in the unchanged-fingerprint case:
`records[0]` is reported stale, removed, nothing else is touched and
nothing else is queried. -/
lemma optP2_unchanged (lookup : Oracle) (now : ℚ) (T : ℤ)
    (tr : TrackingData) (first : BranchEntry) (rest : List BranchEntry)
    (ci : CommitInfo)
    (hbr : tr.branches = first :: rest)
    (hlk : lookup first.name = .found ci)
    (hsha : ci.sha = first.sha) :
    optimizedCheck lookup now T tr =
      { staleBranches :=
          [{ name := first.name,
             daysSinceLastCommit :=
               T - first.daysUntilStale + |first.daysUntilStale| }],
        updatedTracking := { tr with branches := rest },
        queried := [first.name] } := by
  simp only [optimizedCheck, hbr, getBranchLastCommit, hlk, if_pos hsha]

/-- Reduction of `optimizedCheck` in the changed-fingerprint case when the
whole tail is unchanged: only `records[0]` is recomputed, the tail is kept
as is, and the list is re-sorted. -/
lemma optP2_changed_tail_unchanged (lookup : Oracle) (now : ℚ) (T : ℤ)
    (tr : TrackingData) (first : BranchEntry) (rest : List BranchEntry)
    (ci : CommitInfo)
    (hbr : tr.branches = first :: rest)
    (hlk : lookup first.name = .found ci)
    (hsha : ci.sha ≠ first.sha)
    (htail : ∀ e ∈ rest, ∃ ci', lookup e.name = .found ci' ∧ ci'.sha = e.sha) :
    optimizedCheck lookup now T tr =
      { staleBranches := [],
        updatedTracking :=
          { tr with branches :=
              (updateEntryP2 now T first ci :: rest).mergeSort dLe },
        queried := first.name :: (walkForward lookup now T rest).2 } := by
  simp only [optimizedCheck, hbr, getBranchLastCommit, hlk, if_neg hsha,
    walkForward_unchanged lookup now T rest htail]

end P2

namespace CB

open Lunda

/-- `finishRun` reports the stale list it was given, whether or not the
save succeeds (the report is printed before the save). -/
lemma finishRun_reported (now : ℚ) (w : World) (p : Bool)
    (s : List ForgottenBranch) (tr : TrackingData) :
    (finishRun now w p s tr).reported = s := by
  unfold finishRun
  split <;> rfl

/-- If `finishRun` persisted tracking data `t`, then `t` is exactly the
tracking data it was handed. -/
lemma finishRun_saved (now : ℚ) (w : World) (p : Bool)
    (s : List ForgottenBranch) (tr t : TrackingData)
    (h : (finishRun now w p s tr).saved = some t) : t = tr := by
  unfold finishRun at h
  by_cases hs : w.saveOk = true
  · rw [if_pos hs] at h
    simpa using h.symm
  · rw [if_neg hs] at h
    simp at h

/-- Names of the branches produced by `performInitialScan` are a
duplicate-free list whenever the branch listing is duplicate-free. -/
lemma initialScan_names_nodup (lookup : Oracle) (now : ℚ) (T : ℤ)
    (raw : List String) (h : (getAllBranches raw).Nodup) :
    ((performInitialScan lookup now T raw).branches.map (·.name)).Nodup := by
  unfold performInitialScan
  have hperm := (List.mergeSort_perm
    ((getAllBranches raw).filterMap fun name =>
      (getBranchLastCommit lookup name).map fun ci =>
        { name := name, lastCommitDate := ci.date, lastCommitSha := ci.sha,
          mValue := calculateMValue now ci.date T,
          calculatedAt := now : BranchEntry }) mLe).map (·.name)
  exact hperm.symm.nodup
    ((scan_names_sublist lookup now T (getAllBranches raw)).nodup h)

/-- Names of the working list of `performOptimizedCheck` (tracked entries
plus the newly added ones, restricted to live branches) are duplicate-free
when both the branch listing and the tracked names are. -/
lemma branches2_names_nodup (lookup : Oracle) (now : ℚ) (T : ℤ)
    (raw : List String) (tr : TrackingData)
    (hraw : (getAllBranches raw).Nodup)
    (htr : (tr.branches.map (·.name)).Nodup) :
    ((List.filter (fun b => (getAllBranches raw).contains b.name)
      (tr.branches ++
        ((getAllBranches raw).filter
          (fun n => !((tr.branches.map (·.name)).contains n))).filterMap fun n =>
          (getBranchLastCommit lookup n).map fun ci =>
            { name := n, lastCommitDate := ci.date, lastCommitSha := ci.sha,
              mValue := calculateMValue now ci.date T,
              calculatedAt := now : BranchEntry })).map (·.name)).Nodup := by
  have hnew : ((getAllBranches raw).filter
      (fun n => !((tr.branches.map (·.name)).contains n))).Nodup :=
    (List.filter_sublist _).nodup hraw
  have hadded := scan_names_sublist lookup now T
    ((getAllBranches raw).filter
      (fun n => !((tr.branches.map (·.name)).contains n)))
  have h1 : ((tr.branches ++
      ((getAllBranches raw).filter
        (fun n => !((tr.branches.map (·.name)).contains n))).filterMap fun n =>
        (getBranchLastCommit lookup n).map fun ci =>
          { name := n, lastCommitDate := ci.date, lastCommitSha := ci.sha,
            mValue := calculateMValue now ci.date T,
            calculatedAt := now : BranchEntry }).map (·.name)).Nodup := by
    rw [List.map_append, List.nodup_append]
    refine ⟨htr, hadded.nodup hnew, ?_⟩
    intro x hx1 hx2
    have hxnew := hadded.subset hx2
    have hxpred := (List.mem_filter.mp hxnew).2
    simp at hxpred
    obtain ⟨b, hb, hbx⟩ := List.mem_map.mp hx1
    exact hxpred b hb hbx
  exact ((List.filter_sublist _).map _).nodup h1

/-- The incremental check preserves duplicate-freeness of branch names. -/
lemma opt_names_nodup (lookup : Oracle) (now : ℚ) (T : ℤ)
    (raw : List String) (tr : TrackingData)
    (hraw : (getAllBranches raw).Nodup)
    (htr : (tr.branches.map (·.name)).Nodup) :
    (((performOptimizedCheck lookup now T raw tr).updatedTracking.branches).map
      (·.name)).Nodup := by
  have hb2 := branches2_names_nodup lookup now T raw tr hraw htr
  simp only [performOptimizedCheck]
  split
  · simp
  next first rest heq =>
    have hcons : ((first :: rest).map (·.name)).Nodup := by
      rw [← heq]
      exact ((List.mergeSort_perm _ mLe).map _).symm.nodup hb2
    have hfirst : first.name ∉ rest.map (·.name) :=
      (List.nodup_cons.mp (by simpa using hcons)).1
    have hrest : (rest.map (·.name)).Nodup :=
      (List.nodup_cons.mp (by simpa using hcons)).2
    split
    · exact hrest
    next ci =>
      split
      · split
        · exact hrest
        · simpa using hcons
      · have hw := walkBackRev_names_sublist lookup now T rest.reverse
        have hw2 : (((walkBackRev lookup now T rest.reverse).1.reverse).map
            (·.name)).Sublist (rest.map (·.name)) := by
          have h3 := hw.reverse
          simpa [List.map_reverse] using h3
        apply ((List.mergeSort_perm _ mLe).map _).symm.nodup
        rw [List.map_cons, List.nodup_cons]
        refine ⟨?_, hw2.nodup hrest⟩
        intro hmem
        exact hfirst (hw2.subset (by simpa [updateEntry] using hmem))

/-- If `finishRun` persisted tracking data `t`, the wake-up it handed to
the trigger writer is `now + max(1, t.branches[0].mValue)` days, or none
when `t.branches` is empty. -/
lemma finishRun_schedule (now : ℚ) (w : World) (p : Bool)
    (s : List ForgottenBranch) (tr t : TrackingData)
    (h : (finishRun now w p s tr).saved = some t) :
    (finishRun now w p s tr).scheduled =
      match t.branches with
      | [] => none
      | e :: _ => some (now + ((max 1 e.mValue : ℤ) : ℚ) * msPerDay) := by
  unfold finishRun at h ⊢
  by_cases hs : w.saveOk = true
  · rw [if_pos hs] at h ⊢
    simp only [Option.some.injEq] at h
    subst h
    cases tr.branches with
    | nil => rfl
    | cons e l => simp [calculateNextCronDate]
  · rw [if_neg hs] at h
    simp at h

end CB

/-! ## Claims -/

open Lunda

/-- C9: for a fixed `(lastChangeTime, threshold)` pair, `remainingDays`
(`calculateMValue` in `checkBranches.ts`, `calculateDaysUntilStale` in
`part_002`, both `ceil(threshold - elapsed/day)`) is monotonically
non-increasing in `now`. -/
theorem c9_remainingDays_antitone (lastChangeTime : ℚ) (T : ℤ)
    (now1 now2 : ℚ) (h : now1 ≤ now2) :
    CB.calculateMValue now2 lastChangeTime T ≤
      CB.calculateMValue now1 lastChangeTime T ∧
    P2.calculateDaysUntilStale now2 T lastChangeTime ≤
      P2.calculateDaysUntilStale now1 T lastChangeTime := by
  have hms : (0 : ℚ) < msPerDay := by norm_num [msPerDay]
  have hdiv : (now1 - lastChangeTime) / msPerDay ≤
      (now2 - lastChangeTime) / msPerDay :=
    (div_le_div_iff_of_pos_right hms).mpr (by linarith)
  have key := sub_le_sub_left hdiv (T : ℚ)
  exact ⟨Int.ceil_le_ceil key, Int.ceil_le_ceil key⟩

/-- C9 witness: monotonicity evaluated at a concrete pair of instants. -/
theorem c9_witness :
    (0 : ℚ) ≤ 5 * msPerDay ∧
    CB.calculateMValue (5 * msPerDay) 0 90 ≤ CB.calculateMValue 0 0 90 := by
  have h0 : (0 : ℚ) ≤ 5 * msPerDay := by norm_num [msPerDay]
  exact ⟨h0, (c9_remainingDays_antitone 0 90 0 (5 * msPerDay) h0).1⟩

/-- C1 counterexample: in `checkBranches.ts`, an unchanged fingerprint on
`records[0]` does *not* imply a newly-forgotten report.  Concrete snapshot
satisfying every stated precondition (non-empty, sorted, matching
threshold 90) whose `records[0]` (`feat-y`, stored SHA `abc`) still has
fingerprint `abc` but last changed only 40 days ago: `performOptimizedCheck`
reports nothing and keeps the record, instead of emitting and removing it
as the claim requires. -/
theorem c1_counterexample :
    (CB.performOptimizedCheck
        (fun n => if n = "feat-y" then .found ⟨10 * msPerDay, "abc"⟩ else .notFound)
        (50 * msPerDay) 90 ["feat-y"]
        { threshold := 90,
          branches := [{ name := "feat-y", lastCommitDate := 10 * msPerDay,
                         lastCommitSha := "abc", mValue := 50,
                         calculatedAt := 10 * msPerDay }],
          lastFullScan := 0 }).staleBranches = [] ∧
    (CB.performOptimizedCheck
        (fun n => if n = "feat-y" then .found ⟨10 * msPerDay, "abc"⟩ else .notFound)
        (50 * msPerDay) 90 ["feat-y"]
        { threshold := 90,
          branches := [{ name := "feat-y", lastCommitDate := 10 * msPerDay,
                         lastCommitSha := "abc", mValue := 50,
                         calculatedAt := 10 * msPerDay }],
          lastFullScan := 0 }).updatedTracking.branches =
      [{ name := "feat-y", lastCommitDate := 10 * msPerDay,
         lastCommitSha := "abc", mValue := 50, calculatedAt := 10 * msPerDay }] := by
  rw [CB.optCB_unchanged_fresh _ _ _ _ _
    { name := "feat-y", lastCommitDate := 10 * msPerDay,
      lastCommitSha := "abc", mValue := 50, calculatedAt := 10 * msPerDay }
    [] ⟨10 * msPerDay, "abc"⟩ rfl (by decide) (by decide) (by decide) rfl rfl
    (by norm_num [msPerDay])]
  exact ⟨rfl, rfl⟩

/-- C1 (amended): unchanged fingerprint on `records[0]`.  In `part_002`'s
`optimizedCheck` the claim holds as stated: `records[0]` is reported as
newly forgotten, removed, every other record is untouched and no other
branch is queried.  In `checkBranches.ts`'s `performOptimizedCheck` the
same holds only under the additional conditions that at least `threshold`
days have elapsed since the branch's (re-fetched) last commit and that the
live branch listing coincides with the tracked set. -/
theorem c1_unchanged_first_reconcile :
    (∀ (lookup : Oracle) (now : ℚ) (T : ℤ) (tr : P2.TrackingData)
        (first : P2.BranchEntry) (rest : List P2.BranchEntry) (ci : CommitInfo),
      tr.branches = first :: rest →
      lookup first.name = .found ci →
      ci.sha = first.sha →
      P2.optimizedCheck lookup now T tr =
        { staleBranches :=
            [{ name := first.name,
               daysSinceLastCommit :=
                 T - first.daysUntilStale + |first.daysUntilStale| }],
          updatedTracking := { tr with branches := rest },
          queried := [first.name] }) ∧
    (∀ (lookup : Oracle) (now : ℚ) (T : ℤ) (raw : List String)
        (tr : CB.TrackingData) (first : CB.BranchEntry)
        (rest : List CB.BranchEntry) (ci : CommitInfo),
      tr.branches = first :: rest →
      List.Pairwise (fun a b => CB.mLe a b = true) tr.branches →
      (∀ n ∈ getAllBranches raw, (tr.branches.map (·.name)).contains n) →
      (∀ b ∈ tr.branches, (getAllBranches raw).contains b.name) →
      lookup first.name = .found ci →
      ci.sha = first.lastCommitSha →
      (T : ℚ) ≤ (now - ci.date) / msPerDay →
      CB.performOptimizedCheck lookup now T raw tr =
        { staleBranches := [{ name := first.name, lastCommitDate := ci.date,
                              days := ⌊(now - ci.date) / msPerDay⌋ }],
          updatedTracking := { tr with branches := rest },
          queried := [first.name] }) := by
  constructor
  · intro lookup now T tr first rest ci hbr hlk hsha
    exact P2.optP2_unchanged lookup now T tr first rest ci hbr hlk hsha
  · intro lookup now T raw tr first rest ci hbr hsort hsub hsup hlk hsha hdays
    exact CB.optCB_unchanged_stale lookup now T raw tr first rest ci hbr hsort
      hsub hsup hlk hsha hdays

/-- C1 witness: both halves of the amended claim instantiated on the
spec's own scenario (threshold 90, `records[0] = feat-y` with
`remainingDays 0`, stored fingerprint `abc` still current, last change 95
days ago). -/
theorem c1_witness :
    ((fun n => if n = "feat-y" then LookupResult.found ⟨0, "abc"⟩ else .notFound)
        "feat-y" = .found ⟨0, "abc"⟩ ∧
      P2.optimizedCheck
        (fun n => if n = "feat-y" then .found ⟨0, "abc"⟩ else .notFound)
        (95 * msPerDay) 90
        { threshold := 90, lastFullScan := 0,
          branches := [{ name := "feat-y", sha := "abc", daysUntilStale := 0,
                         calculatedAt := 0 }] } =
        { staleBranches := [{ name := "feat-y",
                              daysSinceLastCommit := 90 - 0 + |(0 : ℤ)| }],
          updatedTracking := { threshold := 90, lastFullScan := 0, branches := [] },
          queried := ["feat-y"] }) ∧
    ((90 : ℚ) ≤ (95 * msPerDay - 0) / msPerDay ∧
      CB.performOptimizedCheck
        (fun n => if n = "feat-y" then .found ⟨0, "abc"⟩ else .notFound)
        (95 * msPerDay) 90 ["feat-y"]
        { threshold := 90,
          branches := [{ name := "feat-y", lastCommitDate := 0,
                         lastCommitSha := "abc", mValue := 0, calculatedAt := 0 }],
          lastFullScan := 0 } =
        { staleBranches := [{ name := "feat-y", lastCommitDate := 0,
                              days := ⌊(95 * msPerDay - 0) / msPerDay⌋ }],
          updatedTracking :=
            { threshold := 90, branches := [], lastFullScan := 0 },
          queried := ["feat-y"] }) := by
  have hd : (90 : ℚ) ≤ (95 * msPerDay - 0) / msPerDay := by norm_num [msPerDay]
  refine ⟨⟨rfl, ?_⟩, hd, ?_⟩
  · exact c1_unchanged_first_reconcile.1
      (fun n => if n = "feat-y" then .found ⟨0, "abc"⟩ else .notFound)
      (95 * msPerDay) 90
      { threshold := 90, lastFullScan := 0,
        branches := [{ name := "feat-y", sha := "abc", daysUntilStale := 0,
                       calculatedAt := 0 }] }
      { name := "feat-y", sha := "abc", daysUntilStale := 0, calculatedAt := 0 }
      [] ⟨0, "abc"⟩ rfl rfl rfl
  · exact c1_unchanged_first_reconcile.2
      (fun n => if n = "feat-y" then .found ⟨0, "abc"⟩ else .notFound)
      (95 * msPerDay) 90 ["feat-y"]
      { threshold := 90,
        branches := [{ name := "feat-y", lastCommitDate := 0,
                       lastCommitSha := "abc", mValue := 0, calculatedAt := 0 }],
        lastFullScan := 0 }
      { name := "feat-y", lastCommitDate := 0, lastCommitSha := "abc",
        mValue := 0, calculatedAt := 0 }
      [] ⟨0, "abc"⟩ rfl (by decide) (by decide) (by decide) rfl rfl hd

/-- C8: after a successful `run` of `checkBranches.ts` that persisted
tracking data `t`, the wake-up handed to the trigger writer is exactly
`max(1, t.branches[0].mValue)` days from `now` when `t.branches` is
non-empty, and no wake-up is scheduled when it is empty. -/
theorem c8_next_wakeup (lookup : Oracle) (now : ℚ) (T : ℤ) (w : CB.World)
    (t : CB.TrackingData) (h : (CB.run lookup now T w).saved = some t) :
    (CB.run lookup now T w).scheduled =
      match t.branches with
      | [] => none
      | e :: _ => some (now + ((max 1 e.mValue : ℤ) : ℚ) * msPerDay) := by
  unfold CB.run at h ⊢
  cases htd : w.trackingDoc with
  | transportError => simp [htd, CB.loadTrackingData, CB.fatalOutcome] at h
  | docNotFound =>
    simp only [htd, CB.loadTrackingData] at h ⊢
    cases hrb : w.rawBranches with
    | error e => simp [hrb, CB.fatalOutcome] at h
    | ok raw =>
      simp only [hrb] at h ⊢
      unfold CB.runFullScan at h ⊢
      exact CB.finishRun_schedule now w true _ _ t h
  | found tr =>
    simp only [htd, CB.loadTrackingData] at h ⊢
    cases hrb : w.rawBranches with
    | error e => simp [hrb, CB.fatalOutcome] at h
    | ok raw =>
      simp only [hrb] at h ⊢
      by_cases hth : tr.threshold ≠ T
      · rw [if_pos hth] at h ⊢
        unfold CB.runFullScan at h ⊢
        exact CB.finishRun_schedule now w true _ _ t h
      · rw [if_neg hth] at h ⊢
        exact CB.finishRun_schedule now w false _ _ t h

/-- C8 witness: a concrete successful run over one tracked branch whose
fingerprint is unchanged and fresh; the persisted snapshot is non-empty
and the scheduled wake-up is `max(1, 50) = 50` days from now. -/
theorem c8_witness :
    (CB.run
        (fun n => if n = "feat-y" then .found ⟨10 * msPerDay, "abc"⟩ else .notFound)
        (50 * msPerDay) 90
        { trackingDoc := .found
            { threshold := 90,
              branches := [{ name := "feat-y", lastCommitDate := 10 * msPerDay,
                             lastCommitSha := "abc", mValue := 50,
                             calculatedAt := 10 * msPerDay }],
              lastFullScan := 0 },
          rawBranches := .ok ["feat-y"],
          lookup := fun _ => .notFound,
          saveOk := true,
          workflowDoc := .hasCron }).saved = some
      { threshold := 90,
        branches := [{ name := "feat-y", lastCommitDate := 10 * msPerDay,
                       lastCommitSha := "abc", mValue := 50,
                       calculatedAt := 10 * msPerDay }],
        lastFullScan := 0 } ∧
    (CB.run
        (fun n => if n = "feat-y" then .found ⟨10 * msPerDay, "abc"⟩ else .notFound)
        (50 * msPerDay) 90
        { trackingDoc := .found
            { threshold := 90,
              branches := [{ name := "feat-y", lastCommitDate := 10 * msPerDay,
                             lastCommitSha := "abc", mValue := 50,
                             calculatedAt := 10 * msPerDay }],
              lastFullScan := 0 },
          rawBranches := .ok ["feat-y"],
          lookup := fun _ => .notFound,
          saveOk := true,
          workflowDoc := .hasCron }).scheduled =
      some (50 * msPerDay + ((max 1 (50 : ℤ) : ℤ) : ℚ) * msPerDay) := by
  have hsaved :
      (CB.run
        (fun n => if n = "feat-y" then .found ⟨10 * msPerDay, "abc"⟩ else .notFound)
        (50 * msPerDay) 90
        { trackingDoc := .found
            { threshold := 90,
              branches := [{ name := "feat-y", lastCommitDate := 10 * msPerDay,
                             lastCommitSha := "abc", mValue := 50,
                             calculatedAt := 10 * msPerDay }],
              lastFullScan := 0 },
          rawBranches := .ok ["feat-y"],
          lookup := fun _ => .notFound,
          saveOk := true,
          workflowDoc := .hasCron }).saved = some
      { threshold := 90,
        branches := [{ name := "feat-y", lastCommitDate := 10 * msPerDay,
                       lastCommitSha := "abc", mValue := 50,
                       calculatedAt := 10 * msPerDay }],
        lastFullScan := 0 } := by
    unfold CB.run
    simp only [CB.loadTrackingData]
    rw [if_neg (by norm_num)]
    rw [CB.optCB_unchanged_fresh _ _ _ _ _
      { name := "feat-y", lastCommitDate := 10 * msPerDay,
        lastCommitSha := "abc", mValue := 50, calculatedAt := 10 * msPerDay }
      [] ⟨10 * msPerDay, "abc"⟩ rfl (by decide) (by decide) (by decide) rfl rfl
      (by norm_num [msPerDay])]
    rfl
  refine ⟨hsaved, ?_⟩
  rw [c8_next_wakeup _ _ _ _ _ hsaved]

/-- C10: on the incremental path of `checkBranches.ts` (snapshot present,
matching threshold, branch listing matching the tracked set, sorted
records), if `records[0]`'s current fingerprint equals its stored one but
fewer than `threshold` days have elapsed since its last change, the run
reports nothing, persists the snapshot completely unchanged (`records[0]`
keeps all its fields), exits successfully, and schedules the next wake-up
from that unchanged first record. -/
theorem c10_unchanged_fresh_run (lookup : Oracle) (now : ℚ) (T : ℤ)
    (w : CB.World) (raw : List String) (tr : CB.TrackingData)
    (first : CB.BranchEntry) (rest : List CB.BranchEntry) (ci : CommitInfo)
    (hdoc : w.trackingDoc = .found tr)
    (hthr : tr.threshold = T)
    (hraw : w.rawBranches = .ok raw)
    (hsave : w.saveOk = true)
    (hbr : tr.branches = first :: rest)
    (hsort : List.Pairwise (fun a b => CB.mLe a b = true) tr.branches)
    (hsub : ∀ n ∈ getAllBranches raw, (tr.branches.map (·.name)).contains n)
    (hsup : ∀ b ∈ tr.branches, (getAllBranches raw).contains b.name)
    (hlk : lookup first.name = .found ci)
    (hsha : ci.sha = first.lastCommitSha)
    (hfresh : (now - ci.date) / msPerDay < (T : ℚ)) :
    (CB.run lookup now T w).exitZero = true ∧
    (CB.run lookup now T w).saved = some tr ∧
    (CB.run lookup now T w).reported = [] ∧
    (CB.run lookup now T w).scheduled =
      some (now + ((max 1 first.mValue : ℤ) : ℚ) * msPerDay) := by
  have hrun : CB.run lookup now T w =
      CB.finishRun now w false [] tr := by
    unfold CB.run
    simp only [hdoc, CB.loadTrackingData, hraw]
    rw [if_neg (by simp [hthr])]
    rw [CB.optCB_unchanged_fresh lookup now T raw tr first rest ci hbr hsort
      hsub hsup hlk hsha hfresh]
  rw [hrun]
  unfold CB.finishRun
  rw [if_pos hsave, hbr]
  exact ⟨rfl, rfl, rfl, by simp [CB.calculateNextCronDate]⟩

/-- C10 witness: the concrete fresh-and-unchanged scenario (threshold 90,
elapsed 40 days, fingerprint still `abc`): the run succeeds, persists the
snapshot unchanged, reports nothing, and schedules in 50 days. -/
theorem c10_witness :
    ((50 * msPerDay - 10 * msPerDay) / msPerDay < (90 : ℚ)) ∧
    (CB.run
        (fun n => if n = "feat-y" then .found ⟨10 * msPerDay, "abc"⟩ else .notFound)
        (50 * msPerDay) 90
        { trackingDoc := .found
            { threshold := 90,
              branches := [{ name := "feat-y", lastCommitDate := 10 * msPerDay,
                             lastCommitSha := "abc", mValue := 50,
                             calculatedAt := 10 * msPerDay }],
              lastFullScan := 0 },
          rawBranches := .ok ["feat-y"],
          lookup := fun _ => .notFound,
          saveOk := true,
          workflowDoc := .hasCron }).saved = some
      { threshold := 90,
        branches := [{ name := "feat-y", lastCommitDate := 10 * msPerDay,
                       lastCommitSha := "abc", mValue := 50,
                       calculatedAt := 10 * msPerDay }],
        lastFullScan := 0 } ∧
    (CB.run
        (fun n => if n = "feat-y" then .found ⟨10 * msPerDay, "abc"⟩ else .notFound)
        (50 * msPerDay) 90
        { trackingDoc := .found
            { threshold := 90,
              branches := [{ name := "feat-y", lastCommitDate := 10 * msPerDay,
                             lastCommitSha := "abc", mValue := 50,
                             calculatedAt := 10 * msPerDay }],
              lastFullScan := 0 },
          rawBranches := .ok ["feat-y"],
          lookup := fun _ => .notFound,
          saveOk := true,
          workflowDoc := .hasCron }).reported = [] := by
  have hfresh : (50 * msPerDay - 10 * msPerDay) / msPerDay < (90 : ℚ) := by
    norm_num [msPerDay]
  have h := c10_unchanged_fresh_run
    (fun n => if n = "feat-y" then .found ⟨10 * msPerDay, "abc"⟩ else .notFound)
    (50 * msPerDay) 90
    { trackingDoc := .found
        { threshold := 90,
          branches := [{ name := "feat-y", lastCommitDate := 10 * msPerDay,
                         lastCommitSha := "abc", mValue := 50,
                         calculatedAt := 10 * msPerDay }],
          lastFullScan := 0 },
      rawBranches := .ok ["feat-y"],
      lookup := fun _ => .notFound,
      saveOk := true,
      workflowDoc := .hasCron }
    ["feat-y"]
    { threshold := 90,
      branches := [{ name := "feat-y", lastCommitDate := 10 * msPerDay,
                     lastCommitSha := "abc", mValue := 50,
                     calculatedAt := 10 * msPerDay }],
      lastFullScan := 0 }
    { name := "feat-y", lastCommitDate := 10 * msPerDay,
      lastCommitSha := "abc", mValue := 50, calculatedAt := 10 * msPerDay }
    [] ⟨10 * msPerDay, "abc"⟩ rfl rfl rfl rfl rfl (by decide) (by decide)
    (by decide) rfl rfl hfresh
  exact ⟨hfresh, h.2.1, h.2.2.1⟩

/-- C2 counterexample: a transport/auth failure of the fingerprint lookup
does *not* abort the run.  Concrete world: one tracked existing branch
`br-a`, every `listCommits` call fails with a transport error, and the
trigger-document write also fails.  `getBranchLastCommit`'s `catch`
swallows the failure into `null`, so the branch is treated as deleted:
the run exits 0 and persists a snapshot with `br-a` silently dropped —
instead of the fatal non-zero exit with no persistence the claim
requires. -/
theorem c2_counterexample :
    (CB.run (fun _ => .transportError) (50 * msPerDay) 90
        { trackingDoc := .found
            { threshold := 90,
              branches := [{ name := "br-a", lastCommitDate := 10 * msPerDay,
                             lastCommitSha := "abc", mValue := 50,
                             calculatedAt := 10 * msPerDay }],
              lastFullScan := 0 },
          rawBranches := .ok ["br-a"],
          lookup := fun _ => .transportError,
          saveOk := true,
          workflowDoc := .writeError }).exitZero = true ∧
    (CB.run (fun _ => .transportError) (50 * msPerDay) 90
        { trackingDoc := .found
            { threshold := 90,
              branches := [{ name := "br-a", lastCommitDate := 10 * msPerDay,
                             lastCommitSha := "abc", mValue := 50,
                             calculatedAt := 10 * msPerDay }],
              lastFullScan := 0 },
          rawBranches := .ok ["br-a"],
          lookup := fun _ => .transportError,
          saveOk := true,
          workflowDoc := .writeError }).saved =
      some { threshold := 90, branches := [], lastFullScan := 0 } := by
  constructor <;>
  · unfold CB.run
    simp only [CB.loadTrackingData]
    rw [if_neg (by norm_num)]
    simp [CB.performOptimizedCheck, CB.finishRun, getAllBranches,
      getBranchLastCommit, CB.mLe]

/-- C2 (amended): the failures that *are* fatal in `checkBranches.ts`.
A transport/auth failure reading the tracking document, a failure of the
branch listing, or a failure writing the tracking document each abort the
run with a non-zero exit status and no snapshot persisted.  (Fingerprint
lookup transport failures are swallowed and treated as branch-absent, and
trigger-document read/write failures are logged and skipped — see the
counterexample.) -/
theorem c2_fatal_errors (lookup : Oracle) (now : ℚ) (T : ℤ) (w : CB.World) :
    (w.trackingDoc = .transportError →
      (CB.run lookup now T w).exitZero = false ∧
      (CB.run lookup now T w).saved = none) ∧
    (w.rawBranches = .error () →
      (CB.run lookup now T w).exitZero = false ∧
      (CB.run lookup now T w).saved = none) ∧
    (w.saveOk = false →
      (CB.run lookup now T w).exitZero = false ∧
      (CB.run lookup now T w).saved = none) := by
  refine ⟨?_, ?_, ?_⟩
  · intro h
    unfold CB.run
    simp [h, CB.loadTrackingData, CB.fatalOutcome]
  · intro h
    unfold CB.run
    cases htd : w.trackingDoc with
    | transportError => simp [CB.loadTrackingData, CB.fatalOutcome]
    | docNotFound => simp [CB.loadTrackingData, h, CB.fatalOutcome]
    | found tr => simp [CB.loadTrackingData, h, CB.fatalOutcome]
  · intro h
    have hfin : ∀ (p : Bool) (s : List CB.ForgottenBranch)
        (tr : CB.TrackingData),
        (CB.finishRun now w p s tr).exitZero = false ∧
        (CB.finishRun now w p s tr).saved = none := by
      intro p s tr
      unfold CB.finishRun
      rw [if_neg (by simp [h])]
      exact ⟨rfl, rfl⟩
    unfold CB.run
    cases htd : w.trackingDoc with
    | transportError => simp [CB.loadTrackingData, CB.fatalOutcome]
    | docNotFound =>
      simp only [CB.loadTrackingData]
      cases hrb : w.rawBranches with
      | error e => simp [CB.fatalOutcome]
      | ok raw =>
        dsimp only
        unfold CB.runFullScan
        exact hfin _ _ _
    | found tr =>
      simp only [CB.loadTrackingData]
      cases hrb : w.rawBranches with
      | error e => simp [CB.fatalOutcome]
      | ok raw =>
        dsimp only
        by_cases hth : tr.threshold ≠ T
        · rw [if_pos hth]
          unfold CB.runFullScan
          exact hfin _ _ _
        · rw [if_neg hth]
          exact hfin _ _ _

/-- C2 witness: each fatal case exercised at a concrete world — tracking
document read failure, branch-listing failure, and save failure all yield
exit 1 and no persisted snapshot. -/
theorem c2_witness :
    ((CB.run (fun _ => .notFound) 0 90
        { trackingDoc := .transportError, rawBranches := .ok [],
          lookup := fun _ => .notFound, saveOk := true,
          workflowDoc := .hasCron }).exitZero = false ∧
      (CB.run (fun _ => .notFound) 0 90
        { trackingDoc := .transportError, rawBranches := .ok [],
          lookup := fun _ => .notFound, saveOk := true,
          workflowDoc := .hasCron }).saved = none) ∧
    ((CB.run (fun _ => .notFound) 0 90
        { trackingDoc := .docNotFound, rawBranches := .error (),
          lookup := fun _ => .notFound, saveOk := true,
          workflowDoc := .hasCron }).exitZero = false ∧
      (CB.run (fun _ => .notFound) 0 90
        { trackingDoc := .docNotFound, rawBranches := .error (),
          lookup := fun _ => .notFound, saveOk := true,
          workflowDoc := .hasCron }).saved = none) ∧
    ((CB.run (fun _ => .notFound) 0 90
        { trackingDoc := .docNotFound, rawBranches := .ok [],
          lookup := fun _ => .notFound, saveOk := false,
          workflowDoc := .hasCron }).exitZero = false ∧
      (CB.run (fun _ => .notFound) 0 90
        { trackingDoc := .docNotFound, rawBranches := .ok [],
          lookup := fun _ => .notFound, saveOk := false,
          workflowDoc := .hasCron }).saved = none) :=
  ⟨(c2_fatal_errors (fun _ => .notFound) 0 90
      { trackingDoc := .transportError, rawBranches := .ok [],
        lookup := fun _ => .notFound, saveOk := true,
        workflowDoc := .hasCron }).1 rfl,
   (c2_fatal_errors (fun _ => .notFound) 0 90
      { trackingDoc := .docNotFound, rawBranches := .error (),
        lookup := fun _ => .notFound, saveOk := true,
        workflowDoc := .hasCron }).2.1 rfl,
   (c2_fatal_errors (fun _ => .notFound) 0 90
      { trackingDoc := .docNotFound, rawBranches := .ok [],
        lookup := fun _ => .notFound, saveOk := false,
        workflowDoc := .hasCron }).2.2 rfl⟩

/-- C3 counterexample: the orchestrator of `checkBranches.ts` does *not*
have the periodic-rescan condition.  Concrete run with a persisted
snapshot whose threshold matches (90) and whose `lastFullScan` lies 200
days in the past: `run` still takes the optimized (incremental) path, not
a full scan. -/
theorem c3_counterexample :
    (90 : ℚ) ≤ (200 * msPerDay - 0) / msPerDay ∧
    (CB.run
        (fun n => if n = "br-a" then .found ⟨150 * msPerDay, "abc"⟩ else .notFound)
        (200 * msPerDay) 90
        { trackingDoc := .found
            { threshold := 90,
              branches := [{ name := "br-a", lastCommitDate := 150 * msPerDay,
                             lastCommitSha := "abc", mValue := 40,
                             calculatedAt := 150 * msPerDay }],
              lastFullScan := 0 },
          rawBranches := .ok ["br-a"],
          lookup := fun _ => .notFound,
          saveOk := true,
          workflowDoc := .hasCron }).fullScanPath = false ∧
    (CB.run
        (fun n => if n = "br-a" then .found ⟨150 * msPerDay, "abc"⟩ else .notFound)
        (200 * msPerDay) 90
        { trackingDoc := .found
            { threshold := 90,
              branches := [{ name := "br-a", lastCommitDate := 150 * msPerDay,
                             lastCommitSha := "abc", mValue := 40,
                             calculatedAt := 150 * msPerDay }],
              lastFullScan := 0 },
          rawBranches := .ok ["br-a"],
          lookup := fun _ => .notFound,
          saveOk := true,
          workflowDoc := .hasCron }).exitZero = true := by
  refine ⟨by norm_num [msPerDay], ?_⟩
  have hrun :
      CB.run
        (fun n => if n = "br-a" then .found ⟨150 * msPerDay, "abc"⟩ else .notFound)
        (200 * msPerDay) 90
        { trackingDoc := .found
            { threshold := 90,
              branches := [{ name := "br-a", lastCommitDate := 150 * msPerDay,
                             lastCommitSha := "abc", mValue := 40,
                             calculatedAt := 150 * msPerDay }],
              lastFullScan := 0 },
          rawBranches := .ok ["br-a"],
          lookup := fun _ => .notFound,
          saveOk := true,
          workflowDoc := .hasCron } =
      CB.finishRun (200 * msPerDay)
        { trackingDoc := .found
            { threshold := 90,
              branches := [{ name := "br-a", lastCommitDate := 150 * msPerDay,
                             lastCommitSha := "abc", mValue := 40,
                             calculatedAt := 150 * msPerDay }],
              lastFullScan := 0 },
          rawBranches := .ok ["br-a"],
          lookup := fun _ => .notFound,
          saveOk := true,
          workflowDoc := .hasCron } false []
        { threshold := 90,
          branches := [{ name := "br-a", lastCommitDate := 150 * msPerDay,
                         lastCommitSha := "abc", mValue := 40,
                         calculatedAt := 150 * msPerDay }],
          lastFullScan := 0 } := by
    unfold CB.run
    simp only [CB.loadTrackingData]
    rw [if_neg (by norm_num)]
    rw [CB.optCB_unchanged_fresh _ _ _ _ _
      { name := "br-a", lastCommitDate := 150 * msPerDay,
        lastCommitSha := "abc", mValue := 40, calculatedAt := 150 * msPerDay }
      [] ⟨150 * msPerDay, "abc"⟩ rfl (by decide) (by decide) (by decide) rfl rfl
      (by norm_num [msPerDay])]
  rw [hrun]
  exact ⟨rfl, rfl⟩

/-- C3 (amended): the periodic re-sync lives in `part_002`'s orchestrator:
when a persisted snapshot exists and at least `threshold` days have
elapsed since its `lastFullScan`, `needsFullRescan` is true and `run`
takes the FULL_SCAN path.  `checkBranches.ts`'s orchestrator full-scans
only when no snapshot exists or the threshold changed (see the
counterexample). -/
theorem c3_periodic_rescan (lookup : Oracle) (now : ℚ) (T : ℤ)
    (w : P2.WorldP2) (tr : P2.TrackingData) (raw : List String)
    (hdoc : w.trackingDoc = .found tr)
    (hraw : w.rawBranches = .ok raw)
    (helapsed : (T : ℚ) ≤ (now - tr.lastFullScan) / msPerDay) :
    P2.needsFullRescan now T (some tr) = true ∧
    (P2.runP2 lookup now T w).fullScanPath = true := by
  have hres : P2.needsFullRescan now T (some tr) = true := by
    simp [P2.needsFullRescan, helapsed]
  refine ⟨hres, ?_⟩
  unfold P2.runP2
  simp only [hdoc, P2.loadTrackingDataP2, hres, if_true, hraw]
  unfold P2.runFullScanP2 P2.finishRunP2
  by_cases hs : w.saveOk = true
  · rw [if_pos hs]
  · rw [if_neg hs]

/-- C3 witness: a concrete `part_002` world 200 days after the last full
scan, threshold 90: the run takes the full-scan path. -/
theorem c3_witness :
    (90 : ℚ) ≤ (200 * msPerDay - 0) / msPerDay ∧
    (P2.runP2 (fun _ => .notFound) (200 * msPerDay) 90
        { trackingDoc := .found { threshold := 90, lastFullScan := 0, branches := [] },
          rawBranches := .ok [],
          lookup := fun _ => .notFound,
          saveOk := true,
          workflowDoc := .hasCron }).fullScanPath = true := by
  have h : (90 : ℚ) ≤ (200 * msPerDay - 0) / msPerDay := by norm_num [msPerDay]
  exact ⟨h,
    (c3_periodic_rescan (fun _ => .notFound) (200 * msPerDay) 90
      { trackingDoc := .found { threshold := 90, lastFullScan := 0, branches := [] },
        rawBranches := .ok [],
        lookup := fun _ => .notFound,
        saveOk := true,
        workflowDoc := .hasCron }
      { threshold := 90, lastFullScan := 0, branches := [] } [] rfl rfl h).2⟩

/-- C5 counterexample: the incremental path of `checkBranches.ts` *does*
observe and add newly created branches.  Concrete incremental check with
tracked branch `br-a` and a new branch `br-b` in the listing: the
resulting snapshot contains `br-b` and its fingerprint was queried. -/
theorem c5_counterexample :
    (CB.performOptimizedCheck
        (fun n => if n = "br-a" then .found ⟨10 * msPerDay, "abc"⟩
                  else if n = "br-b" then .found ⟨40 * msPerDay, "zzz"⟩
                  else .notFound)
        (50 * msPerDay) 90 ["br-a", "br-b"]
        { threshold := 90,
          branches := [{ name := "br-a", lastCommitDate := 10 * msPerDay,
                         lastCommitSha := "abc", mValue := 50,
                         calculatedAt := 10 * msPerDay }],
          lastFullScan := 0 }).updatedTracking.branches.map (·.name) =
      ["br-a", "br-b"] ∧
    "br-b" ∈ (CB.performOptimizedCheck
        (fun n => if n = "br-a" then .found ⟨10 * msPerDay, "abc"⟩
                  else if n = "br-b" then .found ⟨40 * msPerDay, "zzz"⟩
                  else .notFound)
        (50 * msPerDay) 90 ["br-a", "br-b"]
        { threshold := 90,
          branches := [{ name := "br-a", lastCommitDate := 10 * msPerDay,
                         lastCommitSha := "abc", mValue := 50,
                         calculatedAt := 10 * msPerDay }],
          lastFullScan := 0 }).queried := by
  have hm : CB.calculateMValue (50 * msPerDay) (40 * msPerDay) 90 = 80 := by
    norm_num [CB.calculateMValue, msPerDay]
  simp only [CB.performOptimizedCheck]
  rw [List.mergeSort_of_sorted
    (by simp [CB.mLe, hm, getAllBranches, getBranchLastCommit])]
  simp [getAllBranches, getBranchLastCommit]
  norm_num [msPerDay]

/-- C5 (amended): in `part_002` the incremental reconcile path neither
adds nor queries any branch outside the prior snapshot: every record of
the updated snapshot carries a name already tracked, and every queried
name is a tracked name.  New branches enter tracking only through a full
scan.  (`checkBranches.ts`'s incremental path instead enumerates all
branches and adds new ones — see the counterexample.) -/
theorem c5_incremental_frame (lookup : Oracle) (now : ℚ) (T : ℤ)
    (tr : P2.TrackingData) :
    (∀ b ∈ (P2.optimizedCheck lookup now T tr).updatedTracking.branches,
      b.name ∈ tr.branches.map (·.name)) ∧
    (∀ q ∈ (P2.optimizedCheck lookup now T tr).queried,
      q ∈ tr.branches.map (·.name)) := by
  cases hbr : tr.branches with
  | nil => simp [P2.optimizedCheck, hbr]
  | cons first rest =>
    simp only [P2.optimizedCheck, hbr]
    cases hc : getBranchLastCommit lookup first.name with
    | none =>
      dsimp only
      refine ⟨?_, ?_⟩
      · intro b hb
        simp only [List.map_cons, List.mem_cons]
        exact Or.inr (List.mem_map_of_mem _ hb)
      · intro q hq
        simp only [List.mem_singleton] at hq
        simp [hq]
    | some ci =>
      dsimp only
      by_cases hsha : ci.sha = first.sha
      · rw [if_pos hsha]
        refine ⟨?_, ?_⟩
        · intro b hb
          simp only [List.map_cons, List.mem_cons]
          exact Or.inr (List.mem_map_of_mem _ hb)
        · intro q hq
          simp only [List.mem_singleton] at hq
          simp [hq]
      · rw [if_neg hsha]
        refine ⟨?_, ?_⟩
        · intro b hb
          simp only [List.mem_mergeSort] at hb
          rcases List.mem_cons.mp hb with hb | hb
          · subst hb
            simp [P2.updateEntryP2]
          · have hsub := (P2.walkForward_names lookup now T rest).1
            have : b.name ∈ (P2.walkForward lookup now T rest).1.map (·.name) :=
              List.mem_map_of_mem _ hb
            simp only [List.map_cons, List.mem_cons]
            exact Or.inr (hsub.subset this)
        · intro q hq
          rcases List.mem_cons.mp hq with hq | hq
          · simp [hq]
          · have := (P2.walkForward_names lookup now T rest).2 q hq
            simp only [List.map_cons, List.mem_cons]
            exact Or.inr this

/-- C5 witness: the frame property evaluated on a concrete snapshot with
one tracked branch whose fingerprint is unchanged: the single queried
name, `feat-y`, is a tracked name. -/
theorem c5_witness :
    "feat-y" ∈ (P2.optimizedCheck
        (fun n => if n = "feat-y" then .found ⟨0, "abc"⟩ else .notFound) 0 90
        { threshold := 90, lastFullScan := 0,
          branches := [{ name := "feat-y", sha := "abc", daysUntilStale := 5,
                         calculatedAt := 0 }] }).queried ∧
    "feat-y" ∈
      ({ threshold := 90, lastFullScan := 0,
         branches := [{ name := "feat-y", sha := "abc", daysUntilStale := 5,
                        calculatedAt := 0 }] } : P2.TrackingData).branches.map
        (·.name) :=
  ⟨by decide,
   (c5_incremental_frame
      (fun n => if n = "feat-y" then .found ⟨0, "abc"⟩ else .notFound) 0 90
      { threshold := 90, lastFullScan := 0,
        branches := [{ name := "feat-y", sha := "abc", daysUntilStale := 5,
                       calculatedAt := 0 }] }).2 "feat-y" (by decide)⟩

/-- C6: incremental reconcile where `records[0]`'s fingerprint changed and
every other record's fingerprint is unchanged: in both variants, nothing
is reported, the result is a permutation of the recomputed `records[0]`
together with the untouched tail (no record at index ≥ 1 is modified,
added or dropped), and the resulting list is sorted ascending by
remaining days. -/
theorem c6_changed_first_frame :
    (∀ (lookup : Oracle) (now : ℚ) (T : ℤ) (raw : List String)
        (tr : CB.TrackingData) (first : CB.BranchEntry)
        (rest : List CB.BranchEntry) (ci : CommitInfo),
      tr.branches = first :: rest →
      List.Pairwise (fun a b => CB.mLe a b = true) tr.branches →
      (∀ n ∈ getAllBranches raw, (tr.branches.map (·.name)).contains n) →
      (∀ b ∈ tr.branches, (getAllBranches raw).contains b.name) →
      lookup first.name = .found ci →
      ci.sha ≠ first.lastCommitSha →
      (∀ e ∈ rest, ∃ ci', lookup e.name = .found ci' ∧ ci'.sha = e.lastCommitSha) →
      (CB.performOptimizedCheck lookup now T raw tr).staleBranches = [] ∧
      (CB.performOptimizedCheck lookup now T raw tr).updatedTracking.branches.Perm
        (CB.updateEntry now T first ci :: rest) ∧
      (CB.performOptimizedCheck lookup now T raw tr).updatedTracking.branches.Pairwise
        (fun a b => CB.mLe a b = true)) ∧
    (∀ (lookup : Oracle) (now : ℚ) (T : ℤ) (tr : P2.TrackingData)
        (first : P2.BranchEntry) (rest : List P2.BranchEntry) (ci : CommitInfo),
      tr.branches = first :: rest →
      lookup first.name = .found ci →
      ci.sha ≠ first.sha →
      (∀ e ∈ rest, ∃ ci', lookup e.name = .found ci' ∧ ci'.sha = e.sha) →
      (P2.optimizedCheck lookup now T tr).staleBranches = [] ∧
      (P2.optimizedCheck lookup now T tr).updatedTracking.branches.Perm
        (P2.updateEntryP2 now T first ci :: rest) ∧
      (P2.optimizedCheck lookup now T tr).updatedTracking.branches.Pairwise
        (fun a b => P2.dLe a b = true)) := by
  constructor
  · intro lookup now T raw tr first rest ci hbr hsort hsub hsup hlk hsha htail
    rw [CB.optCB_changed_tail_unchanged lookup now T raw tr first rest ci hbr
      hsort hsub hsup hlk hsha htail]
    exact ⟨rfl, List.mergeSort_perm _ _,
      List.sorted_mergeSort CB.mLe_trans CB.mLe_total _⟩
  · intro lookup now T tr first rest ci hbr hlk hsha htail
    rw [P2.optP2_changed_tail_unchanged lookup now T tr first rest ci hbr
      hlk hsha htail]
    exact ⟨rfl, List.mergeSort_perm _ _,
      List.sorted_mergeSort P2.dLe_trans P2.dLe_total _⟩

/-- C6 witness: both halves instantiated on a concrete two-record snapshot
whose first record changed (stored SHA `abc`, current `xyz`) and whose
second record is unchanged. -/
theorem c6_witness :
    ((CB.performOptimizedCheck
        (fun n => if n = "br-a" then .found ⟨40 * msPerDay, "xyz"⟩
                  else if n = "br-b" then .found ⟨20 * msPerDay, "bbb"⟩
                  else .notFound)
        (50 * msPerDay) 90 ["br-a", "br-b"]
        { threshold := 90,
          branches := [{ name := "br-a", lastCommitDate := 10 * msPerDay,
                         lastCommitSha := "abc", mValue := 50,
                         calculatedAt := 10 * msPerDay },
                       { name := "br-b", lastCommitDate := 20 * msPerDay,
                         lastCommitSha := "bbb", mValue := 60,
                         calculatedAt := 20 * msPerDay }],
          lastFullScan := 0 }).staleBranches = [] ∧
      (CB.performOptimizedCheck
        (fun n => if n = "br-a" then .found ⟨40 * msPerDay, "xyz"⟩
                  else if n = "br-b" then .found ⟨20 * msPerDay, "bbb"⟩
                  else .notFound)
        (50 * msPerDay) 90 ["br-a", "br-b"]
        { threshold := 90,
          branches := [{ name := "br-a", lastCommitDate := 10 * msPerDay,
                         lastCommitSha := "abc", mValue := 50,
                         calculatedAt := 10 * msPerDay },
                       { name := "br-b", lastCommitDate := 20 * msPerDay,
                         lastCommitSha := "bbb", mValue := 60,
                         calculatedAt := 20 * msPerDay }],
          lastFullScan := 0 }).updatedTracking.branches.Perm
        (CB.updateEntry (50 * msPerDay) 90
          { name := "br-a", lastCommitDate := 10 * msPerDay,
            lastCommitSha := "abc", mValue := 50,
            calculatedAt := 10 * msPerDay } ⟨40 * msPerDay, "xyz"⟩ ::
          [{ name := "br-b", lastCommitDate := 20 * msPerDay,
             lastCommitSha := "bbb", mValue := 60,
             calculatedAt := 20 * msPerDay }])) ∧
    ((P2.optimizedCheck
        (fun n => if n = "br-a" then .found ⟨40 * msPerDay, "xyz"⟩
                  else if n = "br-b" then .found ⟨20 * msPerDay, "bbb"⟩
                  else .notFound)
        (50 * msPerDay) 90
        { threshold := 90, lastFullScan := 0,
          branches := [{ name := "br-a", sha := "abc", daysUntilStale := 50,
                         calculatedAt := 10 * msPerDay },
                       { name := "br-b", sha := "bbb", daysUntilStale := 60,
                         calculatedAt := 20 * msPerDay }] }).staleBranches = [] ∧
      (P2.optimizedCheck
        (fun n => if n = "br-a" then .found ⟨40 * msPerDay, "xyz"⟩
                  else if n = "br-b" then .found ⟨20 * msPerDay, "bbb"⟩
                  else .notFound)
        (50 * msPerDay) 90
        { threshold := 90, lastFullScan := 0,
          branches := [{ name := "br-a", sha := "abc", daysUntilStale := 50,
                         calculatedAt := 10 * msPerDay },
                       { name := "br-b", sha := "bbb", daysUntilStale := 60,
                         calculatedAt := 20 * msPerDay }] }).updatedTracking.branches.Pairwise
        (fun a b => P2.dLe a b = true)) := by
  have hcb := c6_changed_first_frame.1
    (fun n => if n = "br-a" then .found ⟨40 * msPerDay, "xyz"⟩
              else if n = "br-b" then .found ⟨20 * msPerDay, "bbb"⟩
              else .notFound)
    (50 * msPerDay) 90 ["br-a", "br-b"]
    { threshold := 90,
      branches := [{ name := "br-a", lastCommitDate := 10 * msPerDay,
                     lastCommitSha := "abc", mValue := 50,
                     calculatedAt := 10 * msPerDay },
                   { name := "br-b", lastCommitDate := 20 * msPerDay,
                     lastCommitSha := "bbb", mValue := 60,
                     calculatedAt := 20 * msPerDay }],
      lastFullScan := 0 }
    { name := "br-a", lastCommitDate := 10 * msPerDay,
      lastCommitSha := "abc", mValue := 50, calculatedAt := 10 * msPerDay }
    [{ name := "br-b", lastCommitDate := 20 * msPerDay,
       lastCommitSha := "bbb", mValue := 60, calculatedAt := 20 * msPerDay }]
    ⟨40 * msPerDay, "xyz"⟩ rfl (by decide) (by decide) (by decide) rfl
    (by decide)
    (by
      intro e he
      rcases List.mem_singleton.mp he with rfl
      exact ⟨⟨20 * msPerDay, "bbb"⟩, rfl, rfl⟩)
  have hp2 := c6_changed_first_frame.2
    (fun n => if n = "br-a" then .found ⟨40 * msPerDay, "xyz"⟩
              else if n = "br-b" then .found ⟨20 * msPerDay, "bbb"⟩
              else .notFound)
    (50 * msPerDay) 90
    { threshold := 90, lastFullScan := 0,
      branches := [{ name := "br-a", sha := "abc", daysUntilStale := 50,
                     calculatedAt := 10 * msPerDay },
                   { name := "br-b", sha := "bbb", daysUntilStale := 60,
                     calculatedAt := 20 * msPerDay }] }
    { name := "br-a", sha := "abc", daysUntilStale := 50,
      calculatedAt := 10 * msPerDay }
    [{ name := "br-b", sha := "bbb", daysUntilStale := 60,
       calculatedAt := 20 * msPerDay }]
    ⟨40 * msPerDay, "xyz"⟩ rfl rfl (by decide)
    (by
      intro e he
      rcases List.mem_singleton.mp he with rfl
      exact ⟨⟨20 * msPerDay, "bbb"⟩, rfl, rfl⟩)
  exact ⟨⟨hcb.1, hcb.2.1⟩, hp2.1, hp2.2.2⟩

/-- C4 counterexample: the incremental path of `checkBranches.ts` can
persist a record with `remainingDays ≤ 0`.  Concrete run: one tracked
branch (`br-a`, stored SHA `a1`, `mValue 2`), its fingerprint changed to
`a2` but its latest commit date is 100 days old (threshold 90).  The
recompute yields `mValue = -10`, the run succeeds and persists that
non-positive record without reporting anything. -/
theorem c4_counterexample :
    (CB.run (fun n => if n = "br-a" then .found ⟨0, "a2"⟩ else .notFound)
        (100 * msPerDay) 90
        { trackingDoc := .found
            { threshold := 90,
              branches := [{ name := "br-a", lastCommitDate := 0,
                             lastCommitSha := "a1", mValue := 2,
                             calculatedAt := 0 }],
              lastFullScan := 0 },
          rawBranches := .ok ["br-a"],
          lookup := fun _ => .notFound,
          saveOk := true,
          workflowDoc := .hasCron }).exitZero = true ∧
    ((CB.run (fun n => if n = "br-a" then .found ⟨0, "a2"⟩ else .notFound)
        (100 * msPerDay) 90
        { trackingDoc := .found
            { threshold := 90,
              branches := [{ name := "br-a", lastCommitDate := 0,
                             lastCommitSha := "a1", mValue := 2,
                             calculatedAt := 0 }],
              lastFullScan := 0 },
          rawBranches := .ok ["br-a"],
          lookup := fun _ => .notFound,
          saveOk := true,
          workflowDoc := .hasCron }).saved.map fun t =>
      t.branches.map (·.mValue)) = some [-10] ∧
    (CB.run (fun n => if n = "br-a" then .found ⟨0, "a2"⟩ else .notFound)
        (100 * msPerDay) 90
        { trackingDoc := .found
            { threshold := 90,
              branches := [{ name := "br-a", lastCommitDate := 0,
                             lastCommitSha := "a1", mValue := 2,
                             calculatedAt := 0 }],
              lastFullScan := 0 },
          rawBranches := .ok ["br-a"],
          lookup := fun _ => .notFound,
          saveOk := true,
          workflowDoc := .hasCron }).reported = [] := by
  have hrun :
      CB.run (fun n => if n = "br-a" then .found ⟨0, "a2"⟩ else .notFound)
        (100 * msPerDay) 90
        { trackingDoc := .found
            { threshold := 90,
              branches := [{ name := "br-a", lastCommitDate := 0,
                             lastCommitSha := "a1", mValue := 2,
                             calculatedAt := 0 }],
              lastFullScan := 0 },
          rawBranches := .ok ["br-a"],
          lookup := fun _ => .notFound,
          saveOk := true,
          workflowDoc := .hasCron } =
      CB.finishRun (100 * msPerDay)
        { trackingDoc := .found
            { threshold := 90,
              branches := [{ name := "br-a", lastCommitDate := 0,
                             lastCommitSha := "a1", mValue := 2,
                             calculatedAt := 0 }],
              lastFullScan := 0 },
          rawBranches := .ok ["br-a"],
          lookup := fun _ => .notFound,
          saveOk := true,
          workflowDoc := .hasCron } false []
        { threshold := 90,
          branches :=
            (CB.updateEntry (100 * msPerDay) 90
              { name := "br-a", lastCommitDate := 0, lastCommitSha := "a1",
                mValue := 2, calculatedAt := 0 } ⟨0, "a2"⟩ ::
              ([] : List CB.BranchEntry)).mergeSort CB.mLe,
          lastFullScan := 0 } := by
    unfold CB.run
    simp only [CB.loadTrackingData]
    rw [if_neg (by norm_num)]
    rw [CB.optCB_changed_tail_unchanged _ _ _ _ _
      { name := "br-a", lastCommitDate := 0, lastCommitSha := "a1",
        mValue := 2, calculatedAt := 0 }
      [] ⟨0, "a2"⟩ rfl (by decide) (by decide) (by decide) rfl (by decide)
      (by intro e he; simp at he)]
  rw [hrun]
  refine ⟨rfl, ?_, rfl⟩
  simp [CB.finishRun, CB.updateEntry]
  norm_num [CB.calculateMValue, msPerDay]
  rw [show ((-10 : ℚ)) = ((-10 : ℤ) : ℚ) by norm_num]
  exact Int.ceil_intCast _

/-- C4 (amended): on the full-scan path every persisted record has
`mValue > 0`, persisted names are duplicate-free (given a duplicate-free
branch listing), and every scanned record with `mValue ≤ 0` is reported
and excluded from the persisted snapshot.  On the incremental path,
persisted branch names remain duplicate-free, but the `remainingDays > 0`
invariant does *not* hold there (see the counterexample). -/
theorem c4_persistence_invariants :
    (∀ (lookup : Oracle) (now : ℚ) (T : ℤ) (w : CB.World) (raw : List String)
        (t : CB.TrackingData),
      w.trackingDoc = .docNotFound →
      w.rawBranches = .ok raw →
      (CB.run lookup now T w).saved = some t →
      (∀ b ∈ t.branches, 0 < b.mValue) ∧
      ((getAllBranches raw).Nodup → (t.branches.map (·.name)).Nodup) ∧
      (∀ b ∈ (CB.performInitialScan lookup now T raw).branches, b.mValue ≤ 0 →
        b.name ∈ (CB.run lookup now T w).reported.map (·.name) ∧
        b ∉ t.branches)) ∧
    (∀ (lookup : Oracle) (now : ℚ) (T : ℤ) (raw : List String)
        (tr : CB.TrackingData),
      (getAllBranches raw).Nodup →
      (tr.branches.map (·.name)).Nodup →
      (((CB.performOptimizedCheck lookup now T raw tr).updatedTracking.branches).map
        (·.name)).Nodup) := by
  constructor
  · intro lookup now T w raw t hdoc hraw hsaved
    have hrun : CB.run lookup now T w = CB.runFullScan lookup now T w raw := by
      unfold CB.run
      simp only [hdoc, CB.loadTrackingData, hraw]
    rw [hrun] at hsaved ⊢
    unfold CB.runFullScan at hsaved ⊢
    have ht := CB.finishRun_saved _ _ _ _ _ _ hsaved
    refine ⟨?_, ?_, ?_⟩
    · intro b hb
      rw [ht] at hb
      have := (List.mem_filter.mp hb).2
      simpa using this
    · intro hnodup
      rw [ht]
      exact ((List.filter_sublist _).map _).nodup
        (CB.initialScan_names_nodup lookup now T raw hnodup)
    · intro b hb hle
      refine ⟨?_, ?_⟩
      · rw [CB.finishRun_reported]
        simp only [List.map_map, List.mem_map, Function.comp, List.mem_filter]
        exact ⟨b, ⟨hb, by simpa using hle⟩, rfl⟩
      · rw [ht]
        intro hbt
        have := (List.mem_filter.mp hbt).2
        simp at this
        omega
  · intro lookup now T raw tr hraw htr
    exact CB.opt_names_nodup lookup now T raw tr hraw htr

/-- C4 witness: a concrete full scan over one branch 95 days stale
(threshold 90): the persisted snapshot is empty (all positive trivially,
names duplicate-free), exercising the full-scan half of the theorem; the
incremental half applied to a concrete snapshot keeps names
duplicate-free. -/
theorem c4_witness :
    ((CB.run (fun _ => .found ⟨0, "s"⟩) (95 * msPerDay) 90
        { trackingDoc := .docNotFound, rawBranches := .ok ["feat-x"],
          lookup := fun _ => .notFound, saveOk := true,
          workflowDoc := .hasCron }).saved = some
      { threshold := 90, branches := [], lastFullScan := 95 * msPerDay }) ∧
    (∀ b ∈ ({ threshold := 90, branches := [],
              lastFullScan := 95 * msPerDay } : CB.TrackingData).branches,
      0 < b.mValue) ∧
    ((getAllBranches ["feat-x"]).Nodup →
      ((({ threshold := 90, branches := [],
           lastFullScan := 95 * msPerDay } : CB.TrackingData).branches.map
        (·.name)).Nodup)) := by
  have hm : CB.calculateMValue (95 * msPerDay) 0 90 = -5 := by
    norm_num [CB.calculateMValue, msPerDay]
    rw [show ((-5 : ℚ)) = ((-5 : ℤ) : ℚ) by norm_num]
    exact Int.ceil_intCast _
  have hsaved :
      (CB.run (fun _ => .found ⟨0, "s"⟩) (95 * msPerDay) 90
        { trackingDoc := .docNotFound, rawBranches := .ok ["feat-x"],
          lookup := fun _ => .notFound, saveOk := true,
          workflowDoc := .hasCron }).saved = some
      { threshold := 90, branches := [], lastFullScan := 95 * msPerDay } := by
    unfold CB.run
    simp only [CB.loadTrackingData]
    unfold CB.runFullScan
    simp [CB.performInitialScan, getAllBranches, getBranchLastCommit, hm,
      CB.finishRun]
  have h := (c4_persistence_invariants.1 (fun _ => .found ⟨0, "s"⟩)
    (95 * msPerDay) 90
    { trackingDoc := .docNotFound, rawBranches := .ok ["feat-x"],
      lookup := fun _ => .notFound, saveOk := true,
      workflowDoc := .hasCron } ["feat-x"]
    { threshold := 90, branches := [], lastFullScan := 95 * msPerDay }
    rfl rfl hsaved)
  exact ⟨hsaved, h.1, h.2.1⟩

/-- C7 counterexample: snapshots are *not* strictly sorted with ties
broken by name.  A full scan over branches `bbb`, `aaa` sharing one commit
date produces two records with equal `mValue = 90` kept in enumeration
order (`bbb` before `aaa`): neither strictly ascending nor name-ordered on
the tie. -/
theorem c7_counterexample :
    (CB.performInitialScan (fun _ => .found ⟨0, "s"⟩) 0 90
      ["bbb", "aaa"]).branches.map (·.name) = ["bbb", "aaa"] ∧
    (CB.performInitialScan (fun _ => .found ⟨0, "s"⟩) 0 90
      ["bbb", "aaa"]).branches.map (·.mValue) = [90, 90] ∧
    ¬ (CB.performInitialScan (fun _ => .found ⟨0, "s"⟩) 0 90
        ["bbb", "aaa"]).branches.Pairwise (fun a b => a.mValue < b.mValue) ∧
    (CB.performInitialScan (fun _ => .found ⟨0, "s"⟩) 0 90
      ["bbb", "aaa"]).branches.map (·.name) ≠ ["aaa", "bbb"] := by
  have hm : CB.calculateMValue 0 0 90 = 90 := by
    norm_num [CB.calculateMValue, msPerDay]
  have hl : (CB.performInitialScan (fun _ => .found ⟨0, "s"⟩) 0 90
      ["bbb", "aaa"]).branches =
      [{ name := "bbb", lastCommitDate := 0, lastCommitSha := "s",
         mValue := 90, calculatedAt := 0 },
       { name := "aaa", lastCommitDate := 0, lastCommitSha := "s",
         mValue := 90, calculatedAt := 0 }] := by
    rw [CB.performInitialScan]
    rw [List.mergeSort_of_sorted
      (by simp [CB.mLe, getAllBranches, getBranchLastCommit])]
    simp [getAllBranches, getBranchLastCommit, hm]
  rw [hl]
  refine ⟨rfl, rfl, by decide, by decide⟩

/-- C7 (amended): every snapshot produced by the full-scan builder or by
the incremental reconciler is sorted ascending by remaining days
*non-strictly*: ties are left in enumeration order by the stable sort,
with no name tie-break.  For `checkBranches.ts`'s reconciler this holds
unconditionally (it re-sorts the working list first); for `part_002`'s it
holds whenever the input snapshot is sorted. -/
theorem c7_sorted_snapshots :
    (∀ (lookup : Oracle) (now : ℚ) (T : ℤ) (raw : List String),
      (CB.performInitialScan lookup now T raw).branches.Pairwise
        (fun a b => CB.mLe a b = true)) ∧
    (∀ (lookup : Oracle) (now : ℚ) (T : ℤ) (raw : List String)
        (tr : CB.TrackingData),
      (CB.performOptimizedCheck lookup now T raw tr).updatedTracking.branches.Pairwise
        (fun a b => CB.mLe a b = true)) ∧
    (∀ (lookup : Oracle) (now : ℚ) (T : ℤ) (raw : List String),
      (P2.fullScan lookup now T raw).branches.Pairwise
        (fun a b => P2.dLe a b = true)) ∧
    (∀ (lookup : Oracle) (now : ℚ) (T : ℤ) (tr : P2.TrackingData),
      tr.branches.Pairwise (fun a b => P2.dLe a b = true) →
      (P2.optimizedCheck lookup now T tr).updatedTracking.branches.Pairwise
        (fun a b => P2.dLe a b = true)) := by
  refine ⟨?_, ?_, ?_, ?_⟩
  · intro lookup now T raw
    unfold CB.performInitialScan
    exact List.sorted_mergeSort CB.mLe_trans CB.mLe_total _
  · intro lookup now T raw tr
    simp only [CB.performOptimizedCheck]
    split
    · simp
    next first rest heq =>
      have hs := List.sorted_mergeSort CB.mLe_trans CB.mLe_total
        (List.filter (fun b => (getAllBranches raw).contains b.name)
          (tr.branches ++
            ((getAllBranches raw).filter
              (fun n => !((tr.branches.map (·.name)).contains n))).filterMap fun n =>
              (getBranchLastCommit lookup n).map fun ci =>
                { name := n, lastCommitDate := ci.date, lastCommitSha := ci.sha,
                  mValue := CB.calculateMValue now ci.date T,
                  calculatedAt := now : CB.BranchEntry }))
      rw [heq] at hs
      split
      · exact hs.of_cons
      next ci =>
        split
        · split
          · exact hs.of_cons
          · exact hs
        · exact List.sorted_mergeSort CB.mLe_trans CB.mLe_total _
  · intro lookup now T raw
    unfold P2.fullScan
    exact List.sorted_mergeSort P2.dLe_trans P2.dLe_total _
  · intro lookup now T tr hsort
    cases hbr : tr.branches with
    | nil => simp [P2.optimizedCheck, hbr]
    | cons first rest =>
      simp only [P2.optimizedCheck, hbr]
      cases hc : getBranchLastCommit lookup first.name with
      | none =>
        dsimp only
        exact (hbr ▸ hsort).of_cons
      | some ci =>
        dsimp only
        by_cases hsha : ci.sha = first.sha
        · rw [if_pos hsha]
          exact (hbr ▸ hsort).of_cons
        · rw [if_neg hsha]
          exact List.sorted_mergeSort P2.dLe_trans P2.dLe_total _

/-- C7 witness: the full-scan half at a concrete scan, and the `part_002`
reconciler half at a concrete sorted snapshot whose only branch was
deleted. -/
theorem c7_witness :
    (CB.performInitialScan (fun _ => .found ⟨0, "s"⟩) 0 90
      ["bbb", "aaa"]).branches.Pairwise (fun a b => CB.mLe a b = true) ∧
    (({ threshold := 90, lastFullScan := 0,
        branches := [{ name := "feat-y", sha := "abc", daysUntilStale := 5,
                       calculatedAt := 0 }] } : P2.TrackingData).branches.Pairwise
      (fun a b => P2.dLe a b = true)) ∧
    (P2.optimizedCheck (fun _ => .notFound) 0 90
      { threshold := 90, lastFullScan := 0,
        branches := [{ name := "feat-y", sha := "abc", daysUntilStale := 5,
                       calculatedAt := 0 }] }).updatedTracking.branches.Pairwise
      (fun a b => P2.dLe a b = true) := by
  have hin :
      (({ threshold := 90, lastFullScan := 0,
          branches := [{ name := "feat-y", sha := "abc", daysUntilStale := 5,
                         calculatedAt := 0 }] } : P2.TrackingData).branches.Pairwise
        (fun a b => P2.dLe a b = true)) := by decide
  exact ⟨c7_sorted_snapshots.1 (fun _ => .found ⟨0, "s"⟩) 0 90 ["bbb", "aaa"],
    hin,
    c7_sorted_snapshots.2.2.2 (fun _ => .notFound) 0 90
      { threshold := 90, lastFullScan := 0,
        branches := [{ name := "feat-y", sha := "abc", daysUntilStale := 5,
                       calculatedAt := 0 }] } hin⟩

